import Mathlib

/-!
Verification development for the cosmic-crunchers server core.

The Rust sources (src/server/src/components.rs, simulation.rs, main.rs) are
shallowly embedded below.  Machine floats (f32/f64) are modelled as exact
rationals; the external collaborators of the core — the trigonometric
primitives, the vector magnitude, the collider-derived mass computed by the
physics engine, and the physics integrator pipeline itself — are parameters
of the model (`ExtMath`, and the `physStep` argument of `step`), since their
code lives outside this repository.  Machine integers that can overflow on
the paths under study (`snapshot_sequence : u32`, `tick : u64`) are modelled
with an explicit wrap-around modulus, matching release-mode Rust semantics.
-/

namespace CosmicCrunchers

/-- External mathematical primitives used by the simulation: cosine, sine,
atan2, euclidean vector magnitude, and the mass the physics engine derives
for a ball collider from its radius and density.  They are parameters of the
embedding; no property of them is assumed except where a theorem states it. -/
structure ExtMath where
  rcos : ℚ → ℚ
  rsin : ℚ → ℚ
  ratan2 : ℚ → ℚ → ℚ
  vnorm : ℚ × ℚ → ℚ
  ballMass : ℚ → ℚ → ℚ

/-- components.rs InputData: one sampled client control state. -/
structure InputData where
  sequence : ℕ
  timestamp : ℕ
  thrust : ℚ
  turn : ℚ
  primary_fire : Bool
  secondary_fire : Bool
deriving DecidableEq

/-- components.rs InputBuffer: front of the `buffer` list is the front of the
Rust VecDeque. -/
structure InputBuffer where
  buffer : List InputData
  last_processed_sequence : ℕ
  max_buffer_size : ℕ
deriving DecidableEq

def InputBuffer.default : InputBuffer :=
  { buffer := [], last_processed_sequence := 0, max_buffer_size := 60 }

/-- Length of the maximal suffix of `l` whose entries all have sequence at
least `s`; this is how far the reverse scan in InputBuffer::add_input walks
before hitting `existing.sequence < input.sequence`. -/
def tailGeLen (l : List InputData) (s : ℕ) : ℕ :=
  (l.reverse.takeWhile (fun x => decide (s ≤ x.sequence))).length

/-- Insert an element at a given position of a list (VecDeque::insert). -/
def insertAt : ℕ → InputData → List InputData → List InputData
  | 0, x, l => x :: l
  | _ + 1, x, [] => [x]
  | n + 1, x, y :: l => y :: insertAt n x l

/-- components.rs InputBuffer::add_input: insert in sequence order (reverse
scan from the tail), then pop from the front while the length exceeds the
capacity. -/
def InputBuffer.add_input (b : InputBuffer) (input : InputData) : InputBuffer :=
  let pos := b.buffer.length - tailGeLen b.buffer input.sequence
  let inserted := insertAt pos input b.buffer
  { b with buffer := inserted.drop (inserted.length - b.max_buffer_size) }

/-- components.rs InputBuffer::get_next_input: pop the front only if its
sequence is exactly `last_processed_sequence + 1`; returns the popped frame
together with the updated buffer (the Rust method mutates in place). -/
def InputBuffer.get_next_input (b : InputBuffer) : Option InputData × InputBuffer :=
  match b.buffer with
  | [] => (none, b)
  | front :: rest =>
    if front.sequence = b.last_processed_sequence + 1 then
      (some front, { b with buffer := rest, last_processed_sequence := front.sequence })
    else
      (none, b)

/-- components.rs InputBuffer::clear_old_inputs. -/
def InputBuffer.clear_old_inputs (b : InputBuffer) (min_sequence : ℕ) : InputBuffer :=
  { b with buffer := b.buffer.dropWhile (fun x => decide (x.sequence < min_sequence)) }

/-- Result of draining a buffer with repeated get_next_input calls
(the while-let loop of GameSimulation::prepare_inputs). -/
structure DrainResult where
  latest : Option InputData
  discarded : ℕ
  rest : List InputData
  last : ℕ
deriving DecidableEq

/-- The while-let loop of prepare_inputs: repeatedly take the next in-order
input, remembering the latest one taken and counting each taken input beyond
the first as discarded. -/
def drainList : List InputData → ℕ → Option InputData → ℕ → DrainResult
  | [], last, latest, count => ⟨latest, count, [], last⟩
  | front :: rest, last, latest, count =>
    if front.sequence = last + 1 then
      drainList rest front.sequence (some front)
        (if latest.isSome then count + 1 else count)
    else
      ⟨latest, count, front :: rest, last⟩

/-- Per-buffer effect of GameSimulation::prepare_inputs: drain all in-order
inputs, and if any was taken clear the buffer and push back only the latest
taken frame.  Also returns the discarded-inputs count that the Rust code
reports in its log line. -/
def prepareBuffer (b : InputBuffer) : ℕ × InputBuffer :=
  let r := drainList b.buffer b.last_processed_sequence none 0
  match r.latest with
  | some input =>
    (r.discarded, { b with buffer := [input], last_processed_sequence := r.last })
  | none =>
    (r.discarded, { b with buffer := r.rest, last_processed_sequence := r.last })

/-- components.rs Transform. -/
structure Transform where
  position : ℚ × ℚ
  rotation : ℚ
deriving DecidableEq

/-- components.rs Velocity. -/
structure Velocity where
  linear : ℚ × ℚ
  angular : ℚ
deriving DecidableEq

def Velocity.default : Velocity := ⟨(0, 0), 0⟩

/-- components.rs Health. -/
structure Health where
  current : ℚ
  max : ℚ
  armor : ℚ
  shield : ℚ
  shield_max : ℚ
  shield_recharge_rate : ℚ
  shield_recharge_delay : ℚ
  last_damage_time : ℚ
deriving DecidableEq

def Health.default : Health :=
  { current := 100, max := 100, armor := 0, shield := 50, shield_max := 50,
    shield_recharge_rate := 10, shield_recharge_delay := 3, last_damage_time := 0 }

/-- components.rs Player (Uuid modelled as ℕ). -/
structure Player where
  id : ℕ
  name : String
  score : ℕ
  kills : ℕ
  deaths : ℕ
  credits : ℕ
deriving DecidableEq

/-- components.rs Ship. -/
structure Ship where
  thrust_power : ℚ
  turn_rate : ℚ
  max_speed : ℚ
  mass : ℚ
  size : ℚ
deriving DecidableEq

def Ship.default : Ship :=
  { thrust_power := 500, turn_rate := 3, max_speed := 200, mass := 1, size := 8 }

/-- components.rs WeaponType. -/
inductive WeaponType
  | RapidFire (rate damage speed : ℚ)
  | Beam (damage_per_second range : ℚ)
  | Spread (count : ℕ) (spread_angle damage speed : ℚ)
  | Homing (damage speed turn_rate : ℚ)
  | AreaNuke (damage radius : ℚ)
deriving DecidableEq

/-- components.rs Weapon. -/
structure Weapon where
  weapon_type : WeaponType
  last_fire_time : ℚ
  ammo : Option ℕ
  cooldown : ℚ
deriving DecidableEq

/-- components.rs Projectile. -/
structure Projectile where
  damage : ℚ
  lifetime : ℚ
  speed : ℚ
  owner_id : ℕ
deriving DecidableEq

/-- components.rs Lifetime. -/
structure Lifetime where
  remaining : ℚ
deriving DecidableEq

/-- Physics body kinds used by the simulation. -/
inductive BodyType
  | Dynamic
  | KinematicVelocityBased
deriving DecidableEq

/-- One rapier rigid body, restricted to the state the simulation reads and
writes: pose, velocities, accumulated force and torque, damping, mass, kind. -/
structure Body where
  position : ℚ × ℚ
  rotation : ℚ
  linvel : ℚ × ℚ
  angvel : ℚ
  force : ℚ × ℚ
  torque : ℚ
  linear_damping : ℚ
  angular_damping : ℚ
  mass : ℚ
  body_type : BodyType
deriving DecidableEq

/-- One rapier collider: parent body handle and ball parameters (the only
shape the simulation creates). -/
structure ColliderRec where
  parent : ℕ
  radius : ℚ
  density : ℚ
  friction : ℚ
  restitution : ℚ
deriving DecidableEq

/-- simulation.rs PhysicsWorld, restricted to the state the simulation code
manipulates: the body and collider arenas (association lists keyed by handle)
and the integration timestep. -/
structure PhysicsWorld where
  bodies : List (ℕ × Body)
  colliders : List (ℕ × ColliderRec)
  next_body_handle : ℕ
  next_collider_handle : ℕ
  dt : ℚ
deriving DecidableEq

def PhysicsWorld.getBody (p : PhysicsWorld) (h : ℕ) : Option Body :=
  (p.bodies.find? (fun kb => kb.1 == h)).map Prod.snd

def PhysicsWorld.setBody (p : PhysicsWorld) (h : ℕ) (b : Body) : PhysicsWorld :=
  { p with bodies := p.bodies.map (fun kb => if kb.1 == h then (h, b) else kb) }

/-- RigidBodySet::insert: returns the fresh handle. -/
def PhysicsWorld.insertBody (p : PhysicsWorld) (b : Body) : ℕ × PhysicsWorld :=
  (p.next_body_handle,
   { p with bodies := p.bodies ++ [(p.next_body_handle, b)],
            next_body_handle := p.next_body_handle + 1 })

/-- ColliderSet::insert_with_parent. -/
def PhysicsWorld.insertCollider (p : PhysicsWorld) (c : ColliderRec) : ℕ × PhysicsWorld :=
  (p.next_collider_handle,
   { p with colliders := p.colliders ++ [(p.next_collider_handle, c)],
            next_collider_handle := p.next_collider_handle + 1 })

/-- RigidBodySet::remove: removes the body together with its attached
colliders. -/
def PhysicsWorld.removeBody (p : PhysicsWorld) (h : ℕ) : PhysicsWorld :=
  { p with bodies := p.bodies.filter (fun kb => kb.1 != h),
           colliders := p.colliders.filter (fun kc => kc.2.parent != h) }

/-- One hecs entity with its (optional) components.  The `rigid_body` and
`collider` fields hold physics handles (components.rs RigidBody/Collider). -/
structure EntityRec where
  id : ℕ
  transform : Option Transform := none
  velocity : Option Velocity := none
  health : Option Health := none
  player : Option Player := none
  input_buffer : Option InputBuffer := none
  ship : Option Ship := none
  weapon : Option Weapon := none
  projectile : Option Projectile := none
  lifetime : Option Lifetime := none
  rigid_body : Option ℕ := none
  collider : Option ℕ := none
deriving DecidableEq

/-- HashMap lookup for the entity ↔ body-handle maps. -/
def mapLookup (m : List (ℕ × ℕ)) (k : ℕ) : Option ℕ :=
  (m.find? (fun kv => kv.1 == k)).map Prod.snd

/-- HashMap::insert (replace an existing binding or append a new one). -/
def mapInsert (m : List (ℕ × ℕ)) (k v : ℕ) : List (ℕ × ℕ) :=
  if (m.find? (fun kv => kv.1 == k)).isSome then
    m.map (fun kv => if kv.1 == k then (k, v) else kv)
  else
    m ++ [(k, v)]

/-- HashMap::remove. -/
def mapRemove (m : List (ℕ × ℕ)) (k : ℕ) : List (ℕ × ℕ) :=
  m.filter (fun kv => kv.1 != k)

/-- simulation.rs GameBounds. -/
structure GameBounds where
  width : ℚ
  height : ℚ
  center : ℚ × ℚ
deriving DecidableEq

def GameBounds.default : GameBounds := ⟨1920, 1080, (0, 0)⟩

/-- simulation.rs RecordedInput. -/
structure RecordedInput where
  tick : ℕ
  player_id : ℕ
  input : InputData
deriving DecidableEq

/-- simulation.rs InputRecorder. -/
structure InputRecorder where
  recorded_inputs : List RecordedInput
  is_recording : Bool
deriving DecidableEq

/-- simulation.rs GameSimulation.  `accumulator` and `last_update` are
wall-clock bookkeeping never read by the systems and are omitted. -/
structure GameSimulation where
  world : List EntityRec
  physics : PhysicsWorld
  entity_to_body : List (ℕ × ℕ)
  body_to_entity : List (ℕ × ℕ)
  tick : ℕ
  snapshot_sequence : ℕ
  input_recorder : Option InputRecorder
  bounds : GameBounds
  next_entity_id : ℕ
deriving DecidableEq

/-- GameSimulation::new: empty world, physics timestep preset to 1/15 s. -/
def GameSimulation.new : GameSimulation :=
  { world := [],
    physics := { bodies := [], colliders := [], next_body_handle := 0,
                 next_collider_handle := 0, dt := 1 / 15 },
    entity_to_body := [], body_to_entity := [],
    tick := 0, snapshot_sequence := 0, input_recorder := none,
    bounds := GameBounds.default, next_entity_id := 0 }

/-- The weapon cooldown constant: the Rust source stores the f32 literal
0.2, whose exact value is 13421773 / 2^26 = 0.20000000298023223876953125;
process_weapon_firing widens it losslessly to f64 for the comparison, so
this rational — strictly greater than 1/5 — is the value the program
compares against.  The simulation-clock products and subtraction the
program computes in f64 differ from their exact rational values by less
than 10^-14, far below the 2.98·10^-9 margin separating 3·(1/15) from this
constant, so the exact-rational comparison in fireCheck decides every
in-range cooldown test exactly as the program does. -/
def cooldown02 : ℚ := 13421773 / 2 ^ 26

/-- GameSimulation::spawn_player_ship.  The body mass stands for the value
rapier derives from the attached ball collider (radius 8, density 1); the
Ship component is afterwards reconciled with it and with the collider
radius, exactly as the Rust code does after spawning. -/
def GameSimulation.spawn_player_ship (s : GameSimulation) (M : ExtMath)
    (player_id : ℕ) (name : String) (spawn_position : ℚ × ℚ) :
    ℕ × GameSimulation :=
  let body : Body :=
    { position := spawn_position, rotation := 0, linvel := (0, 0), angvel := 0,
      force := (0, 0), torque := 0, linear_damping := 2 / 5, angular_damping := 1,
      mass := M.ballMass 8 1, body_type := .Dynamic }
  let r1 := s.physics.insertBody body
  let r2 := r1.2.insertCollider ⟨r1.1, 8, 1, 0, 4 / 5⟩
  let entity := s.next_entity_id
  let e : EntityRec :=
    { id := entity,
      transform := some ⟨spawn_position, 0⟩,
      velocity := some Velocity.default,
      health := some Health.default,
      player := some ⟨player_id, name, 0, 0, 0, 0⟩,
      input_buffer := some InputBuffer.default,
      ship := some { Ship.default with mass := M.ballMass 8 1, size := 8 },
      weapon := some { weapon_type := .RapidFire 5 25 300, last_fire_time := 0,
                       ammo := none, cooldown := cooldown02 },
      rigid_body := some r1.1,
      collider := some r2.1 }
  (entity,
   { s with world := s.world ++ [e], physics := r2.2,
            entity_to_body := mapInsert s.entity_to_body entity r1.1,
            body_to_entity := mapInsert s.body_to_entity r1.1 entity,
            next_entity_id := s.next_entity_id + 1 })

/-- GameSimulation::despawn_entity: if the entity exists and has a RigidBody
component, remove the physics body (with its colliders) and both directions
of the entity ↔ body mapping; then remove the ECS entity (hecs despawn of an
unknown entity only logs). -/
def GameSimulation.despawn_entity (s : GameSimulation) (entity : ℕ) : GameSimulation :=
  let s1 :=
    match (s.world.find? (fun e => e.id == entity)).bind (fun r => r.rigid_body) with
    | some bh =>
      { s with physics := s.physics.removeBody bh,
               entity_to_body := mapRemove s.entity_to_body entity,
               body_to_entity := mapRemove s.body_to_entity bh }
    | none => s
  { s1 with world := s1.world.filter (fun e => e.id != entity) }

/-- The query loop of add_player_input: give the input to the first entity
carrying both a Player with the matching id and an InputBuffer (the Rust loop
breaks after the first match). -/
def addInputToFirstMatch (player_id : ℕ) (input : InputData) :
    List EntityRec → List EntityRec
  | [] => []
  | e :: rest =>
    match e.player, e.input_buffer with
    | some p, some ib =>
      if p.id == player_id then
        { e with input_buffer := some (ib.add_input input) } :: rest
      else
        e :: addInputToFirstMatch player_id input rest
    | _, _ => e :: addInputToFirstMatch player_id input rest

/-- GameSimulation::add_player_input. -/
def GameSimulation.add_player_input (s : GameSimulation) (player_id : ℕ)
    (input : InputData) : GameSimulation :=
  let s1 :=
    match s.input_recorder with
    | some r =>
      if r.is_recording then
        let r2 : InputRecorder :=
          { r with recorded_inputs := r.recorded_inputs ++ [(⟨s.tick, player_id, input⟩ : RecordedInput)] }
        { s with input_recorder := some r2 }
      else s
    | none => s
  { s1 with world := addInputToFirstMatch player_id input s1.world }

/-- One entity of prepare_inputs: an entity carrying Player, InputBuffer and
Ship has its buffer drained, keeping only the latest in-order frame. -/
def prepareStep (e : EntityRec) : EntityRec :=
  match e.player, e.input_buffer, e.ship with
  | some _, some ib, some _ => { e with input_buffer := some (prepareBuffer ib).2 }
  | _, _, _ => e

/-- GameSimulation::prepare_inputs: for every entity carrying Player,
InputBuffer and Ship, drain the buffer keeping only the latest in-order
frame. -/
def GameSimulation.prepare_inputs (s : GameSimulation) : GameSimulation :=
  { s with world := s.world.map prepareStep }

/-- A pending projectile spawn collected by process_weapon_firing. -/
structure FireEvent where
  position : ℚ × ℚ
  velocity : ℚ × ℚ
  damage : ℚ
  owner_id : ℕ
deriving DecidableEq

/-- The per-entity body of the process_weapon_firing query loop: an entity
with Transform, Player, InputBuffer and Weapon whose newest buffered input
requests primary fire spawns a projectile when the cooldown has elapsed on
the simulation clock and the weapon is a RapidFire; the weapon's
last_fire_time is then advanced to the current simulation time. -/
def fireCheck (M : ExtMath) (current_time : ℚ) (e : EntityRec) :
    Option FireEvent × EntityRec :=
  match e.transform, e.player, e.input_buffer, e.weapon with
  | some tr, some pl, some ib, some w =>
    match ib.buffer.getLast? with
    | some latest_input =>
      if latest_input.primary_fire ∧ w.cooldown ≤ current_time - w.last_fire_time then
        match w.weapon_type with
        | .RapidFire _rate damage speed =>
          (some { position := (tr.position.1 + M.rcos tr.rotation * 15,
                               tr.position.2 + M.rsin tr.rotation * 15),
                  velocity := (M.rcos tr.rotation * speed, M.rsin tr.rotation * speed),
                  damage := damage, owner_id := pl.id },
           { e with weapon := some { w with last_fire_time := current_time } })
        | _ => (none, e)
      else (none, e)
    | none => (none, e)
  | _, _, _, _ => (none, e)

/-- First pass of process_weapon_firing: run fireCheck over the world in
order, collecting the projectiles to spawn. -/
def fireGo (M : ExtMath) (t : ℚ) : List EntityRec → List EntityRec × List FireEvent
  | [] => ([], [])
  | e :: rest =>
    let r := fireCheck M t e
    let rr := fireGo M t rest
    (r.2 :: rr.1, match r.1 with | some ev => ev :: rr.2 | none => rr.2)

/-- GameSimulation::spawn_projectile: kinematic velocity-based body, ball
collider of radius 2 and density 1/10, ECS entity with Transform, Velocity,
Projectile, Lifetime and the physics handles. -/
def GameSimulation.spawn_projectile (s : GameSimulation) (M : ExtMath)
    (position velocity : ℚ × ℚ) (damage : ℚ) (owner_id : ℕ) : GameSimulation :=
  let body : Body :=
    { position := position, rotation := 0, linvel := velocity, angvel := 0,
      force := (0, 0), torque := 0, linear_damping := 0, angular_damping := 0,
      mass := M.ballMass 2 (1 / 10), body_type := .KinematicVelocityBased }
  let r1 := s.physics.insertBody body
  let r2 := r1.2.insertCollider ⟨r1.1, 2, 1 / 10, 0, 0⟩
  let e : EntityRec :=
    { id := s.next_entity_id,
      transform := some ⟨position, M.ratan2 velocity.2 velocity.1⟩,
      velocity := some ⟨velocity, 0⟩,
      projectile := some ⟨damage, 3, M.vnorm velocity, owner_id⟩,
      lifetime := some ⟨3⟩,
      rigid_body := some r1.1,
      collider := some r2.1 }
  { s with world := s.world ++ [e], physics := r2.2,
           entity_to_body := mapInsert s.entity_to_body s.next_entity_id r1.1,
           body_to_entity := mapInsert s.body_to_entity r1.1 s.next_entity_id,
           next_entity_id := s.next_entity_id + 1 }

/-- GameSimulation::process_weapon_firing: collect fire events, then spawn
all resulting projectiles in order. -/
def GameSimulation.process_weapon_firing (s : GameSimulation) (M : ExtMath)
    (current_time : ℚ) : GameSimulation :=
  let r := fireGo M current_time s.world
  r.2.foldl (fun acc ev => acc.spawn_projectile M ev.position ev.velocity ev.damage ev.owner_id)
    { s with world := r.1 }

/-- Second pass of update_movement, one entity: an entity with Transform,
Ship and InputBuffer that is linked to a live physics body has the body's
forces and torques reset, the thrust force and turning torque added when
nonzero, and its input buffer cleared; any other entity is untouched. -/
def movementStep (M : ExtMath) (e2b : List (ℕ × ℕ)) (e : EntityRec)
    (p : PhysicsWorld) : EntityRec × PhysicsWorld :=
  match e.transform, e.ship, e.input_buffer with
  | some tr, some sh, some ib =>
    match mapLookup e2b e.id with
    | some bh =>
      match p.getBody bh with
      | some b =>
        let thrust_value := (ib.buffer.getLast?.map InputData.thrust).getD 0
        let turn_value := (ib.buffer.getLast?.map InputData.turn).getD 0
        let thrust_force := (M.rcos tr.rotation * sh.thrust_power * thrust_value,
                             M.rsin tr.rotation * sh.thrust_power * thrust_value)
        let b1 := { b with force := (0, 0), torque := 0 }
        let b2 := if thrust_value ≠ 0 then
            { b1 with force := (b1.force.1 + thrust_force.1, b1.force.2 + thrust_force.2) }
          else b1
        let torque := -turn_value * sh.turn_rate * sh.mass * 100
        let b3 := if turn_value ≠ 0 then { b2 with torque := b2.torque + torque } else b2
        ({ e with input_buffer := some { ib with buffer := [] } }, p.setBody bh b3)
      | none => (e, p)
    | none => (e, p)
  | _, _, _ => (e, p)

/-- Second pass of update_movement over the whole world, threading the
physics world in entity order. -/
def movementGo (M : ExtMath) (e2b : List (ℕ × ℕ)) :
    List EntityRec → PhysicsWorld → List EntityRec × PhysicsWorld
  | [], p => ([], p)
  | e :: rest, p =>
    let r := movementStep M e2b e p
    let rr := movementGo M e2b rest r.2
    (r.1 :: rr.1, rr.2)

/-- GameSimulation::update_movement: process weapon firing on the simulation
clock, then apply movement forces and clear input buffers. -/
def GameSimulation.update_movement (s : GameSimulation) (M : ExtMath) : GameSimulation :=
  let current_time : ℚ := s.tick * (1 / 15)
  let s1 := s.process_weapon_firing M current_time
  let r := movementGo M s1.entity_to_body s1.world s1.physics
  { s1 with world := r.1, physics := r.2 }

/-- GameSimulation::step_physics: set the integrator timestep and run the
external physics pipeline. -/
def GameSimulation.step_physics (s : GameSimulation)
    (physStep : PhysicsWorld → PhysicsWorld) (dt : ℚ) : GameSimulation :=
  { s with physics := physStep { s.physics with dt := dt } }

/-- One entity of sync_physics_to_ecs: an entity with Transform and Velocity
that is linked to a live physics body copies the body pose and velocities. -/
def syncStep (e2b : List (ℕ × ℕ)) (p : PhysicsWorld) (e : EntityRec) : EntityRec :=
  match e.transform, e.velocity with
  | some _, some _ =>
    match mapLookup e2b e.id with
    | some bh =>
      match p.getBody bh with
      | some b =>
        { e with transform := some ⟨b.position, b.rotation⟩,
                 velocity := some ⟨b.linvel, b.angvel⟩ }
      | none => e
    | none => e
  | _, _ => e

/-- GameSimulation::sync_physics_to_ecs. -/
def GameSimulation.sync_physics_to_ecs (s : GameSimulation) : GameSimulation :=
  { s with world := s.world.map (syncStep s.entity_to_body s.physics) }

/-- GameSimulation::update_lifetime_system: decrement all lifetimes, then
despawn every entity whose remaining lifetime is ≤ 0. -/
def lifeStep (dt : ℚ) (e : EntityRec) : EntityRec :=
  match e.lifetime with
  | some lt => { e with lifetime := some ⟨lt.remaining - dt⟩ }
  | none => e

/-- The despawn condition of update_lifetime_system: remaining lifetime has
run out. -/
def lifetimeDoomed (e : EntityRec) : Bool :=
  match e.lifetime with
  | some lt => decide (lt.remaining ≤ 0)
  | none => false

def GameSimulation.update_lifetime_system (s : GameSimulation) (dt : ℚ) : GameSimulation :=
  let world2 := s.world.map (lifeStep dt)
  let doomed := (world2.filter lifetimeDoomed).map EntityRec.id
  doomed.foldl (fun acc i => acc.despawn_entity i) { s with world := world2 }

/-- One entity of update_health_system: add shield_recharge_rate · dt to the
shield, clamped to shield_max, exactly when the recharge delay has elapsed
and the shield is not full. -/
def regenShield (h : Health) (dt : ℚ) : Health :=
  { h with shield := min (h.shield + h.shield_recharge_rate * dt) h.shield_max }

def healthStep (current_time dt : ℚ) (e : EntityRec) : EntityRec :=
  match e.health with
  | some h =>
    if h.shield_recharge_delay ≤ current_time - h.last_damage_time ∧ h.shield < h.shield_max then
      { e with health := some (regenShield h dt) }
    else e
  | none => e

/-- GameSimulation::update_health_system: regenerate shield when the recharge
delay has elapsed on the simulation clock and the shield is not full. -/
def GameSimulation.update_health_system (s : GameSimulation) (dt : ℚ) : GameSimulation :=
  { s with world := s.world.map (healthStep (s.tick * (1 / 15)) dt) }

/-- One entity of apply_boundaries: clamp the transform to the arena
rectangle and, when clamping occurred and the entity has a linked live body,
mirror the clamped position to the body and halve its linear velocity. -/
def boundariesStep (bounds : GameBounds) (e2b : List (ℕ × ℕ)) (e : EntityRec)
    (p : PhysicsWorld) : EntityRec × PhysicsWorld :=
  match e.transform with
  | some tr =>
    let half_width := bounds.width / 2
    let half_height := bounds.height / 2
    let xlo := bounds.center.1 - half_width
    let xhi := bounds.center.1 + half_width
    let ylo := bounds.center.2 - half_height
    let yhi := bounds.center.2 + half_height
    let x0 := tr.position.1
    let y0 := tr.position.2
    let x1 := if x0 < xlo then xlo else if xhi < x0 then xhi else x0
    let y1 := if y0 < ylo then ylo else if yhi < y0 then yhi else y0
    if x0 < xlo ∨ xhi < x0 ∨ y0 < ylo ∨ yhi < y0 then
      let e2 := { e with transform := some ⟨(x1, y1), tr.rotation⟩ }
      match mapLookup e2b e.id with
      | some bh =>
        match p.getBody bh with
        | some b =>
          (e2, p.setBody bh { b with position := (x1, y1),
                                     linvel := (b.linvel.1 * (1 / 2), b.linvel.2 * (1 / 2)) })
        | none => (e2, p)
      | none => (e2, p)
    else (e, p)
  | none => (e, p)

/-- The apply_boundaries pass over the whole world, threading the physics
world in entity order. -/
def boundariesGo (bounds : GameBounds) (e2b : List (ℕ × ℕ)) :
    List EntityRec → PhysicsWorld → List EntityRec × PhysicsWorld
  | [], p => ([], p)
  | e :: rest, p =>
    let r := boundariesStep bounds e2b e p
    let rr := boundariesGo bounds e2b rest r.2
    (r.1 :: rr.1, rr.2)

/-- GameSimulation::apply_boundaries. -/
def GameSimulation.apply_boundaries (s : GameSimulation) : GameSimulation :=
  let r := boundariesGo s.bounds s.entity_to_body s.world s.physics
  { s with world := r.1, physics := r.2 }

/-- simulation.rs EntityType. -/
inductive EntityType
  | Player (p : Player)
  | Projectile (p : Projectile)
  | Enemy
deriving DecidableEq

/-- simulation.rs EntitySnapshot. -/
structure EntitySnapshot where
  entity_id : ℕ
  entity_type : EntityType
  transform : Transform
  velocity : Velocity
  health : Health
  ship : Option Ship
deriving DecidableEq

/-- simulation.rs GameSnapshot.  `timestamp` is the wall clock handed in by
the environment. -/
structure GameSnapshot where
  sequence : ℕ
  tick : ℕ
  timestamp : ℕ
  entities : List EntitySnapshot
deriving DecidableEq

/-- GameSimulation::generate_snapshot: all (Transform, Player) entities
followed by all (Transform, Projectile) entities. -/
def GameSimulation.generate_snapshot (s : GameSimulation) (nowMs : ℕ) : GameSnapshot :=
  let playerEntities := s.world.filterMap (fun e =>
    match e.transform, e.player with
    | some tr, some pl =>
      some { entity_id := e.id, entity_type := EntityType.Player pl, transform := tr,
             velocity := e.velocity.getD Velocity.default,
             health := e.health.getD Health.default, ship := e.ship }
    | _, _ => none)
  let projectileEntities := s.world.filterMap (fun e =>
    match e.transform, e.projectile with
    | some tr, some pr =>
      some { entity_id := e.id, entity_type := EntityType.Projectile pr, transform := tr,
             velocity := e.velocity.getD Velocity.default,
             health := Health.default, ship := none }
    | _, _ => none)
  { sequence := s.snapshot_sequence, tick := s.tick, timestamp := nowMs,
    entities := playerEntities ++ projectileEntities }

/-- simulation.rs SimulationStepResult (`step_duration`, a wall-clock
measurement, is omitted). -/
structure SimulationStepResult where
  tick : ℕ
  entity_count : ℕ
  snapshot : Option GameSnapshot
deriving DecidableEq

/-- GameSimulation::step: run the systems in order, advance `tick` (a u64)
and `snapshot_sequence` (a u32) with release-mode wrap-around, and produce a
snapshot every tick.  `physStep` is the external rapier pipeline and `nowMs`
the wall clock read while building the snapshot. -/
def GameSimulation.step (s : GameSimulation) (M : ExtMath)
    (physStep : PhysicsWorld → PhysicsWorld) (nowMs : ℕ) (dt : ℚ) :
    SimulationStepResult × GameSimulation :=
  let s1 := s.prepare_inputs
  let s2 := s1.update_movement M
  let s3 := s2.step_physics physStep dt
  let s4 := s3.sync_physics_to_ecs
  let s5 := s4.update_lifetime_system dt
  let s6 := s5.update_health_system dt
  let s7 := s6.apply_boundaries
  let s8 := { s7 with tick := (s7.tick + 1) % 2 ^ 64,
                      snapshot_sequence := (s7.snapshot_sequence + 1) % 2 ^ 32 }
  ({ tick := s8.tick, entity_count := s8.world.length,
     snapshot := some (s8.generate_snapshot nowMs) }, s8)

/-- main.rs RoomCode character generation: the first random byte selects the
class (digit for residues 0..9 mod 36, letter otherwise) and a second random
byte selects the character within the class by a further modulo; returns the
ASCII code. -/
def roomCodeChar (a b : ℕ) : ℕ :=
  if a % 36 ≤ 9 then 48 + b % 10 else 65 + b % 26

/-- main.rs RoomCode::generate over a stream of random bytes, two per
character, eight characters. -/
def RoomCode.generate (bytes : ℕ → ℕ) : List ℕ :=
  (List.range 8).map (fun i => roomCodeChar (bytes (2 * i) % 256) (bytes (2 * i + 1) % 256))

/-- Number of byte pairs (a, b) ∈ [0,256)² that roomCodeChar maps to the
ASCII code `c`; with a uniform byte source this is 65536 times the
probability of emitting `c` at any fixed position. -/
def roomCharCount (c : ℕ) : ℕ :=
  ((List.range 256).map (fun a => (List.range 256).countP (fun b => roomCodeChar a b == c))).sum

/-- The contract assumed of the external physics pipeline: integrating one
step neither creates nor destroys bodies (it only changes their dynamic
state), and does not touch the handle allocator. -/
def PhysOk (f : PhysicsWorld → PhysicsWorld) : Prop :=
  ∀ p : PhysicsWorld,
    (f p).bodies.map Prod.fst = p.bodies.map Prod.fst ∧
    (f p).next_body_handle = p.next_body_handle

/-- Simulation states reachable through the public interface of
GameSimulation, stepping with arbitrary external parameters but a physics
pipeline satisfying its contract. -/
inductive Reachable : GameSimulation → Prop
  | new : Reachable GameSimulation.new
  | spawn (s : GameSimulation) (M : ExtMath) (pid : ℕ) (name : String) (pos : ℚ × ℚ) :
      Reachable s → Reachable (s.spawn_player_ship M pid name pos).2
  | despawn (s : GameSimulation) (e : ℕ) :
      Reachable s → Reachable (s.despawn_entity e)
  | input (s : GameSimulation) (pid : ℕ) (i : InputData) :
      Reachable s → Reachable (s.add_player_input pid i)
  | record_on (s : GameSimulation) :
      Reachable s → Reachable { s with input_recorder := some ⟨[], true⟩ }
  | record_off (s : GameSimulation) :
      Reachable s → Reachable { s with input_recorder := none }
  | step (s : GameSimulation) (M : ExtMath) (f : PhysicsWorld → PhysicsWorld)
      (nowMs : ℕ) (dt : ℚ) :
      PhysOk f → Reachable s → Reachable (s.step M f nowMs dt).2

/-! ### Concrete instantiations used by scenario runs and witnesses

`M0` instantiates the external primitives at the only angles and vectors a
given concrete run visits (rotation 0, muzzle velocity (300, 0)); `physId` is
a physics pipeline that leaves every body untouched (a legal behaviour of the
external integrator for these runs, in which every force is zero or the run
only observes quantities the integrator does not change). -/

def M0 : ExtMath :=
  { rcos := fun _ => 1, rsin := fun _ => 0, ratan2 := fun _ _ => 0,
    vnorm := fun v => if v = (300, 0) then 300 else 0,
    ballMass := fun r _ => if r = 8 then 201 else 1 }

def physId : PhysicsWorld → PhysicsWorld := id

/-- The state add_player_input produces when recording is enabled: only the
recorder gains the submitted frame. -/
def recordedPush (s : GameSimulation) (r : InputRecorder) (pid : ℕ)
    (input : InputData) : GameSimulation :=
  let r2 : InputRecorder :=
    { r with recorded_inputs := r.recorded_inputs ++ [(⟨s.tick, pid, input⟩ : RecordedInput)] }
  { s with input_recorder := some r2 }

/-- The simulation state an instant before the u32 snapshot counter wraps. -/
def c3wrapSim : GameSimulation :=
  { GameSimulation.new with snapshot_sequence := 2 ^ 32 - 1 }

/-! ### C1: latest-wins input consolidation — drain characterization -/

/-- The maximal run of consecutive in-order frames at the front of a buffer:
the longest prefix in which the i-th frame has sequence `last + 1 + i`. -/
def consecRun : ℕ → List InputData → List InputData
  | _, [] => []
  | last, f :: rest => if f.sequence = last + 1 then f :: consecRun f.sequence rest else []

/-- Last element of a list, as an Option. -/
def lastOpt : List InputData → Option InputData
  | [] => none
  | [x] => some x
  | _ :: y :: t => lastOpt (y :: t)

/-! ### The projectile-spawning fold of process_weapon_firing -/

/-- Spawning all collected fire events, in order. -/
def spawnFold (M : ExtMath) (evs : List FireEvent) (s0 : GameSimulation) : GameSimulation :=
  evs.foldl (fun acc ev => acc.spawn_projectile M ev.position ev.velocity ev.damage ev.owner_id) s0

/-- The ECS record a projectile spawn appends. -/
def projRec (M : ExtMath) (s0 : GameSimulation) (ev : FireEvent) : EntityRec :=
  { id := s0.next_entity_id,
    transform := some ⟨ev.position, M.ratan2 ev.velocity.2 ev.velocity.1⟩,
    velocity := some ⟨ev.velocity, 0⟩,
    projectile := some ⟨ev.damage, 3, M.vnorm ev.velocity, ev.owner_id⟩,
    lifetime := some ⟨3⟩,
    rigid_body := some s0.physics.next_body_handle,
    collider := some s0.physics.next_collider_handle }

/-! ### Movement-pass lemmas -/

/-- The body state update_movement leaves on a linked ship body: forces and
torques reset, then the thrust force and turning torque of the pending input
frame (defaults 0) added exactly when nonzero. -/
def movedBody (M : ExtMath) (tr : Transform) (sh : Ship) (ib : InputBuffer)
    (b : Body) : Body :=
  let thrust_value := (ib.buffer.getLast?.map InputData.thrust).getD 0
  let turn_value := (ib.buffer.getLast?.map InputData.turn).getD 0
  { b with
    force := if thrust_value ≠ 0 then
        (M.rcos tr.rotation * sh.thrust_power * thrust_value,
         M.rsin tr.rotation * sh.thrust_power * thrust_value)
      else (0, 0),
    torque := if turn_value ≠ 0 then -turn_value * sh.turn_rate * sh.mass * 100 else 0 }

/-! ### Concrete scenario states -/

/-- An input frame with the given sequence and thrust (no turn, no fire). -/
def c1input (k : ℕ) (th : ℚ) : InputData :=
  { sequence := k, timestamp := 0, thrust := th, turn := 0,
    primary_fire := false, secondary_fire := false }

/-- Buffer with last_processed_sequence = 4 holding sequences 5, 6, 7 with
thrust 1/5, 1/2, 1. -/
def c1buf : InputBuffer :=
  { buffer := [c1input 5 (1 / 5), c1input 6 (1 / 2), c1input 7 1],
    last_processed_sequence := 4, max_buffer_size := 60 }

/-- A ship body carrying stale forces from a previous tick. -/
def c1body : Body :=
  { position := (0, 0), rotation := 0, linvel := (0, 0), angvel := 0,
    force := (7, 7), torque := 5, linear_damping := 2 / 5, angular_damping := 1,
    mass := 201, body_type := .Dynamic }

/-- The ship entity of the C1/C2 scenario. -/
def c1ship : EntityRec :=
  { id := 0,
    transform := some ⟨(0, 0), 0⟩,
    velocity := some Velocity.default,
    health := some Health.default,
    player := some ⟨7, "p", 0, 0, 0, 0⟩,
    input_buffer := some c1buf,
    ship := some { Ship.default with mass := 201 },
    weapon := some { weapon_type := .RapidFire 5 25 300, last_fire_time := 0,
                     ammo := none, cooldown := cooldown02 },
    rigid_body := some 0, collider := some 0 }

/-- One-ship simulation with the §C1 scenario buffer. -/
def c1sim : GameSimulation :=
  { world := [c1ship],
    physics := { bodies := [(0, c1body)], colliders := [(0, ⟨0, 8, 1, 0, 4 / 5⟩)],
                 next_body_handle := 1, next_collider_handle := 1, dt := 1 / 15 },
    entity_to_body := [(0, 0)], body_to_entity := [(0, 0)],
    tick := 0, snapshot_sequence := 0, input_recorder := none,
    bounds := GameBounds.default, next_entity_id := 1 }

/-- An input frame that only requests primary fire. -/
def fireInput (k : ℕ) : InputData :=
  { sequence := k, timestamp := 0, thrust := 0, turn := 0,
    primary_fire := true, secondary_fire := false }

/-- A freshly spawned one-player simulation. -/
def fireSim0 : GameSimulation := (GameSimulation.new.spawn_player_ship M0 7 "p" (0, 0)).2

def countProjectiles (s : GameSimulation) : ℕ :=
  s.world.countP (fun e => e.projectile.isSome)

/-- Drive the simulation: each iteration submits the next sequenced
primary-fire input and steps once; records the projectile count after every
step.  `nowFn` is the wall clock offered to each step. -/
def runCounts (nowFn : ℕ → ℕ) : ℕ → ℕ → GameSimulation → List ℕ
  | 0, _, _ => []
  | n + 1, i, s =>
    let s2 := ((s.add_player_input 7 (fireInput (i + 1))).step M0 physId (nowFn i) (1 / 15)).2
    countProjectiles s2 :: runCounts nowFn n (i + 1) s2

/-- The C1 scenario buffer after prepare_inputs: only the newest consumed
frame remains and last_processed_sequence has advanced to 7. -/
def c1bufPrepared : InputBuffer :=
  { c1buf with buffer := [c1input 7 1], last_processed_sequence := 7 }

def c1shipPrepared : EntityRec := { c1ship with input_buffer := some c1bufPrepared }

/-- The C1 scenario state after prepare_inputs. -/
def c1prepared : GameSimulation := { c1sim with world := [c1shipPrepared] }

/-! ### C4: boundary containment -/

/-- Membership in the closed arena rectangle. -/
def inRect (bounds : GameBounds) (pos : ℚ × ℚ) : Prop :=
  bounds.center.1 - bounds.width / 2 ≤ pos.1 ∧ pos.1 ≤ bounds.center.1 + bounds.width / 2 ∧
  bounds.center.2 - bounds.height / 2 ≤ pos.2 ∧ pos.2 ≤ bounds.center.2 + bounds.height / 2

/-- Outside the arena rectangle in at least one direction (the condition on
which apply_boundaries clamps). -/
def outOfRect (bounds : GameBounds) (pos : ℚ × ℚ) : Prop :=
  pos.1 < bounds.center.1 - bounds.width / 2 ∨ bounds.center.1 + bounds.width / 2 < pos.1 ∨
  pos.2 < bounds.center.2 - bounds.height / 2 ∨ bounds.center.2 + bounds.height / 2 < pos.2

/-- The clamped position apply_boundaries computes. -/
def clampPos (bounds : GameBounds) (pos : ℚ × ℚ) : ℚ × ℚ :=
  (if pos.1 < bounds.center.1 - bounds.width / 2 then bounds.center.1 - bounds.width / 2
   else if bounds.center.1 + bounds.width / 2 < pos.1 then bounds.center.1 + bounds.width / 2
   else pos.1,
   if pos.2 < bounds.center.2 - bounds.height / 2 then bounds.center.2 - bounds.height / 2
   else if bounds.center.2 + bounds.height / 2 < pos.2 then bounds.center.2 + bounds.height / 2
   else pos.2)

/-- An out-of-bounds ship body for the C4 scenario: at x = 2000 (past the
right wall x = 960 of the default arena), drifting with velocity (10, 4). -/
def c4body : Body :=
  { position := (2000, 40), rotation := 0, linvel := (10, 4), angvel := 0,
    force := (0, 0), torque := 0, linear_damping := 2 / 5, angular_damping := 1,
    mass := 201, body_type := .Dynamic }

/-- The out-of-bounds entity of the C4 scenario. -/
def c4ship : EntityRec :=
  { id := 1,
    transform := some ⟨(2000, 40), 0⟩,
    velocity := some ⟨(10, 4), 0⟩,
    health := some Health.default,
    player := some ⟨7, "p", 0, 0, 0, 0⟩,
    ship := some { Ship.default with mass := 201 },
    rigid_body := some 5, collider := some 5 }

/-- One-entity simulation whose only entity sits outside the arena. -/
def c4sim : GameSimulation :=
  { world := [c4ship],
    physics := { bodies := [(5, c4body)], colliders := [(5, ⟨5, 8, 1, 0, 4 / 5⟩)],
                 next_body_handle := 6, next_collider_handle := 6, dt := 1 / 15 },
    entity_to_body := [(1, 5)], body_to_entity := [(5, 1)],
    tick := 0, snapshot_sequence := 0, input_recorder := none,
    bounds := GameBounds.default, next_entity_id := 2 }

/-- A buffer whose only (newest) frame requests primary fire. -/
def c5buf : InputBuffer :=
  { buffer := [fireInput 5], last_processed_sequence := 4, max_buffer_size := 60 }

/-- The C1 ship, its pending frame replaced by a primary-fire request. -/
def c5ship : EntityRec := { c1ship with input_buffer := some c5buf }

/-! ### C6: health invariants and shield regeneration -/

/-- Well-formed health record: shield and hit points within their ranges and
a nonnegative recharge rate (all true of the spawn-time Health defaults). -/
def healthOk (h : Health) : Prop :=
  0 ≤ h.shield ∧ h.shield ≤ h.shield_max ∧ 0 ≤ h.current ∧ h.current ≤ h.max ∧
  0 ≤ h.shield_recharge_rate

/-- Every health component of a world is well formed. -/
def worldHealthOk (w : List EntityRec) : Prop :=
  ∀ e ∈ w, ∀ h, e.health = some h → healthOk h

/-- A damaged-shield health record: 40 of 50 shield, 80 of 100 hit points,
damage long enough ago for the recharge delay (3 s) to have elapsed. -/
def c6health : Health :=
  { current := 80, max := 100, armor := 0, shield := 40, shield_max := 50,
    shield_recharge_rate := 10, shield_recharge_delay := 3, last_damage_time := 0 }

/-- An entity carrying only the damaged health record. -/
def c6ent : EntityRec := { id := 0, health := some c6health }

/-- A one-entity simulation for the C6 scenario. -/
def c6sim : GameSimulation :=
  { GameSimulation.new with world := [c6ent], next_entity_id := 1 }

/-- The simulation state after prepare_inputs and the weapon-firing pass,
i.e. the input of the movement fold inside update_movement. -/
def fireStage (s : GameSimulation) (M : ExtMath) : GameSimulation :=
  s.prepare_inputs.process_weapon_firing M (s.prepare_inputs.tick * (1 / 15))

/-- The state after update_movement. -/
def moveStage (s : GameSimulation) (M : ExtMath) : GameSimulation :=
  s.prepare_inputs.update_movement M

/-- The state after step_physics. -/
def physStage (s : GameSimulation) (M : ExtMath)
    (f : PhysicsWorld → PhysicsWorld) (dt : ℚ) : GameSimulation :=
  (moveStage s M).step_physics f dt

/-- The state after sync_physics_to_ecs. -/
def syncStage (s : GameSimulation) (M : ExtMath)
    (f : PhysicsWorld → PhysicsWorld) (dt : ℚ) : GameSimulation :=
  (physStage s M f dt).sync_physics_to_ecs

/-- The state after update_lifetime_system. -/
def lifeStage (s : GameSimulation) (M : ExtMath)
    (f : PhysicsWorld → PhysicsWorld) (dt : ℚ) : GameSimulation :=
  (syncStage s M f dt).update_lifetime_system dt

/-- The state after update_health_system, i.e. the input of
apply_boundaries. -/
def healthStage (s : GameSimulation) (M : ExtMath)
    (f : PhysicsWorld → PhysicsWorld) (dt : ℚ) : GameSimulation :=
  (lifeStage s M f dt).update_health_system dt

/-- A buffer whose head frame is out of order: sequence 9 pending while the
last processed sequence is 4. -/
def c9buf : InputBuffer :=
  { buffer := [c1input 9 1], last_processed_sequence := 4, max_buffer_size := 60 }

theorem physOk_physId : PhysOk physId := fun _ => ⟨rfl, rfl⟩

/-! ### Generic list helpers -/

theorem filter_find?_none {α} (p q : α → Bool) (l : List α)
    (h : ∀ a, q a = true → p a = false) : (l.filter p).find? q = none := by
  induction l with
  | nil => rfl
  | cons a l ih =>
    by_cases hp : p a = true
    · have hq : q a = false := by
        cases hqa : q a with
        | false => rfl
        | true => rw [h a hqa] at hp; exact absurd hp (by simp)
      simp [List.filter_cons, hp, List.find?, hq, ih]
    · simp only [Bool.not_eq_true] at hp
      simp [List.filter_cons, hp, ih]

theorem filter_idem {α} (p : α → Bool) (l : List α) :
    (l.filter p).filter p = l.filter p := by
  induction l with
  | nil => rfl
  | cons a l ih =>
    by_cases hp : p a = true
    · simp [List.filter_cons, hp, ih]
    · simp only [Bool.not_eq_true] at hp
      simp [List.filter_cons, hp, ih]

theorem filter_find?_comm {α} (p q : α → Bool) (l : List α)
    (h : ∀ a, q a = true → p a = true) : (l.filter p).find? q = l.find? q := by
  induction l with
  | nil => rfl
  | cons a l ih =>
    by_cases hq : q a = true
    · simp [List.filter_cons, h a hq, List.find?, hq]
    · by_cases hp : p a = true
      · simp only [Bool.not_eq_true] at hq
        simp [List.filter_cons, hp, List.find?, hq, ih]
      · simp only [Bool.not_eq_true] at hp hq
        simp [List.filter_cons, hp, List.find?, hq, ih]

/-! ### C7: idempotent despawn with physics removal -/

theorem despawn_world (s : GameSimulation) (entity : ℕ) :
    (s.despawn_entity entity).world = s.world.filter (fun e => e.id != entity) := by
  unfold GameSimulation.despawn_entity
  split <;> rfl

theorem despawn_find_none (s : GameSimulation) (entity : ℕ) :
    (s.despawn_entity entity).world.find? (fun e => e.id == entity) = none := by
  rw [despawn_world]
  apply filter_find?_none
  intro a ha
  simp only [beq_iff_eq] at ha
  simp [ha]

/-- C7.  Despawning an entity removes its physics body and every collider
attached to it, deletes both directions of the entity ↔ body-handle mapping,
removes the ECS entity, and a second despawn of the same entity is a no-op:
the state after two calls equals the state after one. -/
theorem C7_despawn_idempotent (s : GameSimulation) (entity : ℕ) :
    (s.despawn_entity entity).despawn_entity entity = s.despawn_entity entity ∧
    (∀ r bh, s.world.find? (fun e => e.id == entity) = some r → r.rigid_body = some bh →
      (s.despawn_entity entity).physics.getBody bh = none ∧
      (∀ kc ∈ (s.despawn_entity entity).physics.colliders, kc.2.parent ≠ bh) ∧
      mapLookup (s.despawn_entity entity).entity_to_body entity = none ∧
      mapLookup (s.despawn_entity entity).body_to_entity bh = none) ∧
    (∀ e2 ∈ (s.despawn_entity entity).world, e2.id ≠ entity) ∧
    (s.despawn_entity entity).world = s.world.filter (fun e => e.id != entity) := by
  refine ⟨?_, ?_, ?_, despawn_world s entity⟩
  · have hfind := despawn_find_none s entity
    have hw := despawn_world s entity
    generalize hd : s.despawn_entity entity = d at hfind hw ⊢
    show d.despawn_entity entity = d
    unfold GameSimulation.despawn_entity
    rw [hfind]
    show { d with world := d.world.filter (fun e => e.id != entity) } = d
    rw [hw, filter_idem, ← hw]
  · intro r bh hr hbh
    have hscrut : (s.world.find? (fun e => e.id == entity)).bind (fun r => r.rigid_body)
        = some bh := by rw [hr]; simpa using hbh
    unfold GameSimulation.despawn_entity
    rw [hscrut]
    refine ⟨?_, ?_, ?_, ?_⟩
    · show (s.physics.removeBody bh).getBody bh = none
      unfold PhysicsWorld.removeBody PhysicsWorld.getBody
      rw [filter_find?_none]
      · rfl
      · intro a ha
        simp only [beq_iff_eq] at ha
        simp [ha]
    · intro kc hkc
      have := List.of_mem_filter hkc
      simpa using this
    · unfold mapRemove mapLookup
      rw [filter_find?_none]
      · rfl
      · intro a ha
        simp only [beq_iff_eq] at ha
        simp [ha]
    · unfold mapRemove mapLookup
      rw [filter_find?_none]
      · rfl
      · intro a ha
        simp only [beq_iff_eq] at ha
        simp [ha]
  · intro e2 he2
    rw [despawn_world] at he2
    have := List.of_mem_filter he2
    simpa using this

/-! ### C10: add_player_input for an unknown player id -/

theorem addInput_no_match (pid : ℕ) (input : InputData) (l : List EntityRec)
    (h : ∀ e ∈ l, e.player.map Player.id ≠ some pid) :
    addInputToFirstMatch pid input l = l := by
  induction l with
  | nil => rfl
  | cons e rest ih =>
    have he := h e (by simp)
    have hrest : ∀ e2 ∈ rest, e2.player.map Player.id ≠ some pid := by
      intro e2 he2
      exact h e2 (by simp [he2])
    unfold addInputToFirstMatch
    cases hp : e.player with
    | none =>
      cases hb : e.input_buffer <;> simp [ih hrest]
    | some p =>
      cases hb : e.input_buffer with
      | none => simp [ih hrest]
      | some ib =>
        have hne : (p.id == pid) = false := by
          rw [hp] at he
          simp at he
          simp [he]
        simp [hne, ih hrest]

/-- Closed form of add_player_input when no Player entity matches the id. -/
theorem addPlayerInput_eq (s : GameSimulation) (pid : ℕ) (input : InputData)
    (h : ∀ e ∈ s.world, e.player.map Player.id ≠ some pid) :
    s.add_player_input pid input =
      (match s.input_recorder with
       | some r => if r.is_recording then recordedPush s r pid input else s
       | none => s) := by
  unfold GameSimulation.add_player_input
  cases hr : s.input_recorder with
  | none =>
    simp only []
    rw [addInput_no_match pid input s.world h]
  | some r0 =>
    cases hrec : r0.is_recording with
    | false =>
      simp only []
      rw [if_neg (by simp [hrec])]
      rw [addInput_no_match pid input s.world h]
      rw [if_neg (by simp [hrec])]
    | true =>
      simp only []
      rw [if_pos hrec]
      rw [addInput_no_match pid input s.world h]
      rw [if_pos hrec]
      rfl

/-- C10.  add_player_input with a player id carried by no live Player entity
changes nothing: the world, physics, both entity ↔ body maps, tick and
snapshot sequence are untouched; with recording disabled (or no recorder) the
whole state is unchanged, and with recording enabled the only change is the
frame appended to the recorder. -/
theorem C10_unknown_player_input (s : GameSimulation) (pid : ℕ) (input : InputData)
    (h : ∀ e ∈ s.world, e.player.map Player.id ≠ some pid) :
    (s.add_player_input pid input).world = s.world ∧
    (s.add_player_input pid input).physics = s.physics ∧
    (s.add_player_input pid input).entity_to_body = s.entity_to_body ∧
    (s.add_player_input pid input).body_to_entity = s.body_to_entity ∧
    (s.add_player_input pid input).tick = s.tick ∧
    (s.add_player_input pid input).snapshot_sequence = s.snapshot_sequence ∧
    (s.add_player_input pid input).bounds = s.bounds ∧
    (s.add_player_input pid input).next_entity_id = s.next_entity_id ∧
    (s.input_recorder = none → s.add_player_input pid input = s) ∧
    (∀ r, s.input_recorder = some r → r.is_recording = false →
      s.add_player_input pid input = s) ∧
    (∀ r, s.input_recorder = some r → r.is_recording = true →
      s.add_player_input pid input = recordedPush s r pid input) := by
  have key := addPlayerInput_eq s pid input h
  have hcases : s.add_player_input pid input = s ∨
      s.add_player_input pid input = recordedPush s (s.input_recorder.getD ⟨[], true⟩) pid input := by
    rw [key]
    cases hr : s.input_recorder with
    | none => exact Or.inl rfl
    | some r0 =>
      cases hrec : r0.is_recording with
      | false => simp [hrec]
      | true => simp [hrec]
  have hproj : (s.add_player_input pid input).world = s.world ∧
      (s.add_player_input pid input).physics = s.physics ∧
      (s.add_player_input pid input).entity_to_body = s.entity_to_body ∧
      (s.add_player_input pid input).body_to_entity = s.body_to_entity ∧
      (s.add_player_input pid input).tick = s.tick ∧
      (s.add_player_input pid input).snapshot_sequence = s.snapshot_sequence ∧
      (s.add_player_input pid input).bounds = s.bounds ∧
      (s.add_player_input pid input).next_entity_id = s.next_entity_id := by
    cases hcases with
    | inl he => rw [he]; exact ⟨rfl, rfl, rfl, rfl, rfl, rfl, rfl, rfl⟩
    | inr he => rw [he]; exact ⟨rfl, rfl, rfl, rfl, rfl, rfl, rfl, rfl⟩
  refine ⟨hproj.1, hproj.2.1, hproj.2.2.1, hproj.2.2.2.1, hproj.2.2.2.2.1,
    hproj.2.2.2.2.2.1, hproj.2.2.2.2.2.2.1, hproj.2.2.2.2.2.2.2, ?_, ?_, ?_⟩
  · intro hn
    rw [key, hn]
  · intro r hrr hfalse
    rw [key, hrr]
    simp [hfalse]
  · intro r hrr htrue
    rw [key, hrr]
    simp [htrue]

/-! ### C3: tick and snapshot-sequence advancement -/

theorem foldl_measure {α β : Type} (meas : GameSimulation → β)
    (g : GameSimulation → α → GameSimulation)
    (hg : ∀ s a, meas (g s a) = meas s) :
    ∀ (l : List α) (s : GameSimulation), meas (l.foldl g s) = meas s := by
  intro l
  induction l with
  | nil => intro s; rfl
  | cons a l ih =>
    intro s
    rw [List.foldl_cons, ih, hg]

theorem tick_despawn (s : GameSimulation) (e : ℕ) :
    (s.despawn_entity e).tick = s.tick := by
  unfold GameSimulation.despawn_entity
  split <;> rfl

theorem seq_despawn (s : GameSimulation) (e : ℕ) :
    (s.despawn_entity e).snapshot_sequence = s.snapshot_sequence := by
  unfold GameSimulation.despawn_entity
  split <;> rfl

theorem tick_fire (s : GameSimulation) (M : ExtMath) (t : ℚ) :
    (s.process_weapon_firing M t).tick = s.tick := by
  unfold GameSimulation.process_weapon_firing
  exact foldl_measure (fun x => x.tick)
    (fun acc (ev : FireEvent) => acc.spawn_projectile M ev.position ev.velocity ev.damage ev.owner_id)
    (fun _ _ => rfl) _ _

theorem seq_fire (s : GameSimulation) (M : ExtMath) (t : ℚ) :
    (s.process_weapon_firing M t).snapshot_sequence = s.snapshot_sequence := by
  unfold GameSimulation.process_weapon_firing
  exact foldl_measure (fun x => x.snapshot_sequence)
    (fun acc (ev : FireEvent) => acc.spawn_projectile M ev.position ev.velocity ev.damage ev.owner_id)
    (fun _ _ => rfl) _ _

theorem tick_movement (s : GameSimulation) (M : ExtMath) :
    (s.update_movement M).tick = s.tick := by
  unfold GameSimulation.update_movement
  exact tick_fire s M _

theorem seq_movement (s : GameSimulation) (M : ExtMath) :
    (s.update_movement M).snapshot_sequence = s.snapshot_sequence := by
  unfold GameSimulation.update_movement
  exact seq_fire s M _

theorem tick_lifetime (s : GameSimulation) (dt : ℚ) :
    (s.update_lifetime_system dt).tick = s.tick := by
  unfold GameSimulation.update_lifetime_system
  exact foldl_measure (fun x => x.tick) _ (fun s2 a => tick_despawn s2 a) _ _

theorem seq_lifetime (s : GameSimulation) (dt : ℚ) :
    (s.update_lifetime_system dt).snapshot_sequence = s.snapshot_sequence := by
  unfold GameSimulation.update_lifetime_system
  exact foldl_measure (fun x => x.snapshot_sequence) _ (fun s2 a => seq_despawn s2 a) _ _

theorem step_tick (s : GameSimulation) (M : ExtMath)
    (f : PhysicsWorld → PhysicsWorld) (nowMs : ℕ) (dt : ℚ) :
    (s.step M f nowMs dt).2.tick = (s.tick + 1) % 2 ^ 64 := by
  show ((((((s.prepare_inputs.update_movement M).step_physics f dt).sync_physics_to_ecs
      ).update_lifetime_system dt).update_health_system dt).apply_boundaries.tick + 1) % 2 ^ 64
    = (s.tick + 1) % 2 ^ 64
  have h1 : (((((s.prepare_inputs.update_movement M).step_physics f dt).sync_physics_to_ecs
      ).update_lifetime_system dt).update_health_system dt).apply_boundaries.tick
      = ((s.prepare_inputs.update_movement M).step_physics f dt).sync_physics_to_ecs.tick := by
    exact tick_lifetime _ dt
  rw [h1]
  show (((s.prepare_inputs.update_movement M).tick + 1) % 2 ^ 64) = (s.tick + 1) % 2 ^ 64
  rw [tick_movement]
  rfl

theorem step_seq (s : GameSimulation) (M : ExtMath)
    (f : PhysicsWorld → PhysicsWorld) (nowMs : ℕ) (dt : ℚ) :
    (s.step M f nowMs dt).2.snapshot_sequence = (s.snapshot_sequence + 1) % 2 ^ 32 := by
  show ((((((s.prepare_inputs.update_movement M).step_physics f dt).sync_physics_to_ecs
      ).update_lifetime_system dt).update_health_system dt).apply_boundaries.snapshot_sequence + 1) % 2 ^ 32
    = (s.snapshot_sequence + 1) % 2 ^ 32
  have h1 : (((((s.prepare_inputs.update_movement M).step_physics f dt).sync_physics_to_ecs
      ).update_lifetime_system dt).update_health_system dt).apply_boundaries.snapshot_sequence
      = ((s.prepare_inputs.update_movement M).step_physics f dt).sync_physics_to_ecs.snapshot_sequence := by
    exact seq_lifetime _ dt
  rw [h1]
  show (((s.prepare_inputs.update_movement M).snapshot_sequence + 1) % 2 ^ 32)
    = (s.snapshot_sequence + 1) % 2 ^ 32
  rw [seq_movement]
  rfl

/-- C3 (amended).  Each step call advances `tick` by one modulo 2^64 (u64)
and `snapshot_sequence` by one modulo 2^32 (u32); a snapshot is always
produced and carries exactly the advanced sequence and tick; and below the
wrap-around point both counters advance by exactly one and strictly
increase. -/
theorem C3_tick_and_sequence (s : GameSimulation) (M : ExtMath)
    (f : PhysicsWorld → PhysicsWorld) (nowMs : ℕ) (dt : ℚ) :
    (s.step M f nowMs dt).2.tick = (s.tick + 1) % 2 ^ 64 ∧
    (s.step M f nowMs dt).2.snapshot_sequence = (s.snapshot_sequence + 1) % 2 ^ 32 ∧
    ((s.step M f nowMs dt).1.snapshot).isSome = true ∧
    (∀ snap, (s.step M f nowMs dt).1.snapshot = some snap →
      snap.sequence = (s.step M f nowMs dt).2.snapshot_sequence ∧
      snap.tick = (s.step M f nowMs dt).2.tick) ∧
    (s.snapshot_sequence + 1 < 2 ^ 32 →
      (s.step M f nowMs dt).2.snapshot_sequence = s.snapshot_sequence + 1 ∧
      s.snapshot_sequence < (s.step M f nowMs dt).2.snapshot_sequence) ∧
    (s.tick + 1 < 2 ^ 64 →
      (s.step M f nowMs dt).2.tick = s.tick + 1 ∧
      s.tick < (s.step M f nowMs dt).2.tick) := by
  refine ⟨step_tick s M f nowMs dt, step_seq s M f nowMs dt, rfl, ?_, ?_, ?_⟩
  · intro snap hsnap
    have heq : (s.step M f nowMs dt).1.snapshot
        = some ((s.step M f nowMs dt).2.generate_snapshot nowMs) := rfl
    rw [heq] at hsnap
    injection hsnap with hsnap
    rw [← hsnap]
    exact ⟨rfl, rfl⟩
  · intro hlt
    rw [step_seq s M f nowMs dt, Nat.mod_eq_of_lt hlt]
    omega
  · intro hlt
    rw [step_tick s M f nowMs dt, Nat.mod_eq_of_lt hlt]
    omega

/-- C3 counterexample.  At snapshot_sequence = 2^32 − 1 (reachable after
2^32 − 1 steps), the u32 counter wraps to 0, so the step does not increment
snapshot_sequence by exactly one and the sequence is not strictly
increasing. -/
theorem C3_wrap_counterexample :
    ¬ ((c3wrapSim.step M0 physId 0 (1 / 15)).2.snapshot_sequence
        = c3wrapSim.snapshot_sequence + 1) := by
  rw [step_seq]
  decide

/-- C3 witness at a concrete state below the wrap point. -/
theorem C3_tick_and_sequence_witness :
    (GameSimulation.new.step M0 physId 0 (1 / 15)).2.tick = 1 ∧
    (GameSimulation.new.step M0 physId 0 (1 / 15)).2.snapshot_sequence = 1 := by
  have h := C3_tick_and_sequence GameSimulation.new M0 physId 0 (1 / 15)
  exact ⟨(h.2.2.2.2.2 (by decide)).1, (h.2.2.2.2.1 (by decide)).1⟩

/-! ### C8: room code generation -/

set_option maxRecDepth 4000 in
theorem roomCharCount_48 : roomCharCount 48 = 1924 := by decide

set_option maxRecDepth 4000 in
theorem roomCharCount_87 : roomCharCount 87 = 1638 := by decide

/-- C8 counterexample.  Under a uniform byte source the characters are not
equally likely: the digit 0 (ASCII 48) arises from 1924 of the 65536 byte
pairs while the letter W (ASCII 87) arises from only 1638, so the generator
is modulo-biased rather than uniform (and there is no rejection loop in the
code). -/
theorem C8_not_uniform_counterexample :
    roomCharCount 48 = 1924 ∧ roomCharCount 87 = 1638 ∧
    roomCharCount 48 ≠ roomCharCount 87 := by
  refine ⟨roomCharCount_48, roomCharCount_87, ?_⟩
  rw [roomCharCount_48, roomCharCount_87]
  decide

/-- C8 (amended).  Every generated room code has exactly 8 characters, each
an uppercase ASCII letter or decimal digit; but the characters are produced
by modulo reduction of two random bytes (class byte mod 36 picks digit or
letter, value byte mod 10 or mod 26 picks the character), which is not
uniform: the digit 0 has probability 1924/65536 per position while the
letter W has 1638/65536. -/
theorem C8_room_code_length_alphabet (bytes : ℕ → ℕ) :
    (RoomCode.generate bytes).length = 8 ∧
    (∀ c ∈ RoomCode.generate bytes, (48 ≤ c ∧ c ≤ 57) ∨ (65 ≤ c ∧ c ≤ 90)) ∧
    roomCharCount 48 = 1924 ∧ roomCharCount 87 = 1638 := by
  refine ⟨by simp [RoomCode.generate], ?_, roomCharCount_48, roomCharCount_87⟩
  intro c hc
  unfold RoomCode.generate at hc
  rw [List.mem_map] at hc
  obtain ⟨i, _, hc⟩ := hc
  rw [← hc]
  unfold roomCodeChar
  by_cases h36 : (bytes (2 * i) % 256) % 36 ≤ 9
  · rw [if_pos h36]
    left
    have hb : (bytes (2 * i + 1) % 256) % 10 < 10 := Nat.mod_lt _ (by norm_num)
    omega
  · rw [if_neg h36]
    right
    have hb : (bytes (2 * i + 1) % 256) % 26 < 26 := Nat.mod_lt _ (by norm_num)
    omega

/-- C8 witness: a concrete byte stream. -/
theorem C8_room_code_witness :
    (RoomCode.generate (fun _ => 0)).length = 8 ∧
    ((48 ≤ 48 ∧ 48 ≤ 57) ∨ (65 ≤ 48 ∧ 48 ≤ 90)) := by
  have h := C8_room_code_length_alphabet (fun _ => 0)
  exact ⟨h.1, h.2.1 48 (by decide)⟩

theorem lastOpt_cons_cons (x y : InputData) (t : List InputData) :
    lastOpt (x :: y :: t) = lastOpt (y :: t) := rfl

theorem lastOpt_isSome (x : InputData) (l : List InputData) :
    (lastOpt (x :: l)).isSome = true := by
  induction l generalizing x with
  | nil => rfl
  | cons y t ih => rw [lastOpt_cons_cons]; exact ih y

theorem drainList_spec (l : List InputData) : ∀ (last : ℕ) (latest : Option InputData) (c : ℕ),
    drainList l last latest c =
      match lastOpt (consecRun last l) with
      | none => ⟨latest, c, l, last⟩
      | some y => ⟨some y,
          c + (consecRun last l).length - (if latest.isSome then 0 else 1),
          l.drop (consecRun last l).length, y.sequence⟩ := by
  induction l with
  | nil => intro last latest c; rfl
  | cons f rest ih =>
    intro last latest c
    by_cases hf : f.sequence = last + 1
    · have hl : drainList (f :: rest) last latest c
          = drainList rest f.sequence (some f) (if latest.isSome then c + 1 else c) := by
        conv_lhs => rw [drainList]
        rw [if_pos hf]
      have hr : consecRun last (f :: rest) = f :: consecRun f.sequence rest := by
        conv_lhs => rw [consecRun]
        rw [if_pos hf]
      rw [hl, ih f.sequence (some f) (if latest.isSome then c + 1 else c), hr]
      cases hlast : lastOpt (consecRun f.sequence rest) with
      | none =>
        have hnil : consecRun f.sequence rest = [] := by
          cases hcc : consecRun f.sequence rest with
          | nil => rfl
          | cons a t =>
            rw [hcc] at hlast
            have hs := lastOpt_isSome a t
            rw [hlast] at hs
            exact absurd hs (by simp)
        rw [hnil]
        show (⟨some f, if latest.isSome then c + 1 else c, rest, f.sequence⟩ : DrainResult)
          = ⟨some f, c + [f].length - (if latest.isSome then 0 else 1),
             (f :: rest).drop [f].length, f.sequence⟩
        simp only [List.length_cons, List.length_nil, List.drop_succ_cons, List.drop_zero,
          DrainResult.mk.injEq]
        cases latest <;> simp
      | some y =>
        have hcons : lastOpt (f :: consecRun f.sequence rest) = some y := by
          cases hcc : consecRun f.sequence rest with
          | nil =>
            rw [hcc] at hlast
            exact absurd hlast (by simp [lastOpt])
          | cons a t =>
            rw [hcc] at hlast
            rw [lastOpt_cons_cons]
            exact hlast
        rw [hcons]
        show (⟨some y, (if latest.isSome then c + 1 else c) + (consecRun f.sequence rest).length
                - (if (some f).isSome then 0 else 1),
              rest.drop (consecRun f.sequence rest).length, y.sequence⟩ : DrainResult)
          = ⟨some y, c + (f :: consecRun f.sequence rest).length - (if latest.isSome then 0 else 1),
             (f :: rest).drop (f :: consecRun f.sequence rest).length, y.sequence⟩
        simp only [Option.isSome_some, List.length_cons, List.drop_succ_cons, if_true,
          DrainResult.mk.injEq]
        cases latest with
        | none => simp
        | some v => simp; omega
    · have hl : drainList (f :: rest) last latest c = ⟨latest, c, f :: rest, last⟩ := by
        conv_lhs => rw [drainList]
        rw [if_neg hf]
      have hr : consecRun last (f :: rest) = [] := by
        conv_lhs => rw [consecRun]
        rw [if_neg hf]
      rw [hl, hr]
      rfl

theorem consecRun_cons_pos {f : InputData} {last : ℕ} {rest : List InputData}
    (hf : f.sequence = last + 1) :
    consecRun last (f :: rest) = f :: consecRun f.sequence rest := by
  conv_lhs => rw [consecRun]
  rw [if_pos hf]

theorem consecRun_cons_neg {f : InputData} {last : ℕ} {rest : List InputData}
    (hf : ¬ f.sequence = last + 1) :
    consecRun last (f :: rest) = [] := by
  conv_lhs => rw [consecRun]
  rw [if_neg hf]

/-- The run consumed by the drain loop is exactly a prefix of the buffer. -/
theorem consecRun_take (last : ℕ) (l : List InputData) :
    l.take (consecRun last l).length = consecRun last l := by
  induction l generalizing last with
  | nil => rfl
  | cons f rest ih =>
    by_cases hf : f.sequence = last + 1
    · rw [consecRun_cons_pos hf]
      simp only [List.length_cons, List.take_succ_cons]
      rw [ih f.sequence]
    · rw [consecRun_cons_neg hf]
      rfl

/-- The i-th frame of the run has sequence last + 1 + i: each was in order at
the moment it was consumed. -/
theorem consecRun_seq (l : List InputData) : ∀ (last i : ℕ) (x : InputData),
    (consecRun last l)[i]? = some x → x.sequence = last + 1 + i := by
  induction l with
  | nil =>
    intro last i x hx
    rw [show consecRun last [] = [] from rfl] at hx
    simp at hx
  | cons f rest ih =>
    intro last i x hx
    by_cases hf : f.sequence = last + 1
    · rw [consecRun_cons_pos hf] at hx
      cases i with
      | zero =>
        simp only [List.getElem?_cons_zero, Option.some_inj] at hx
        rw [← hx, hf]
      | succ j =>
        simp only [List.getElem?_cons_succ] at hx
        have := ih f.sequence j x hx
        rw [hf] at this
        omega
    · rw [consecRun_cons_neg hf] at hx
      simp at hx

/-- Maximality of the run: the first unconsumed frame, if any, is not the
next in-order sequence. -/
theorem consecRun_max (l : List InputData) : ∀ (last : ℕ) (x : InputData),
    (l.drop (consecRun last l).length).head? = some x →
    x.sequence ≠ last + 1 + (consecRun last l).length := by
  induction l with
  | nil =>
    intro last x hx
    rw [show consecRun last [] = [] from rfl] at hx
    simp at hx
  | cons f rest ih =>
    intro last x hx
    by_cases hf : f.sequence = last + 1
    · rw [consecRun_cons_pos hf] at hx ⊢
      rw [hf]
      simp only [List.length_cons, List.drop_succ_cons] at hx
      have hne := ih f.sequence x hx
      rw [hf] at hne
      intro heq
      apply hne
      simp only [List.length_cons] at heq
      omega
    · rw [consecRun_cons_neg hf] at hx ⊢
      simp only [List.length_nil, List.drop_zero, List.head?_cons] at hx
      injection hx with hx
      subst hx
      intro heq
      apply hf
      simp at heq
      exact heq

/-- Closed form of the per-buffer prepare_inputs transformation: no change
when no in-order input is available, otherwise the buffer is left holding
exactly the newest consumed frame, last_processed_sequence advances to its
sequence, and the discard count is one less than the number of consumed
frames. -/
theorem prepareBuffer_spec (b : InputBuffer) :
    prepareBuffer b =
      match lastOpt (consecRun b.last_processed_sequence b.buffer) with
      | none => (0, b)
      | some y => ((consecRun b.last_processed_sequence b.buffer).length - 1,
          { b with buffer := [y], last_processed_sequence := y.sequence }) := by
  unfold prepareBuffer
  rw [drainList_spec]
  cases hlast : lastOpt (consecRun b.last_processed_sequence b.buffer) with
  | none => rfl
  | some y => simp

/-! ### Physics and map micro-lemmas -/

theorem find?_append_left {α} (l l2 : List α) (p : α → Bool) (x : α)
    (h : l.find? p = some x) : (l ++ l2).find? p = some x := by
  induction l with
  | nil => exact absurd h (by simp)
  | cons a t ih =>
    cases hp : p a with
    | true =>
      rw [List.cons_append, List.find?_cons_of_pos _ hp]
      rw [List.find?_cons_of_pos _ hp] at h
      exact h
    | false =>
      rw [List.cons_append, List.find?_cons_of_neg _ (by simp [hp])]
      rw [List.find?_cons_of_neg _ (by simp [hp])] at h
      exact ih h

theorem getBody_append (p : PhysicsWorld) (kb : ℕ × Body) (h : ℕ) (b : Body)
    (hb : p.getBody h = some b) :
    (({ p with bodies := p.bodies ++ [kb] } : PhysicsWorld)).getBody h = some b := by
  unfold PhysicsWorld.getBody at hb ⊢
  cases hf : p.bodies.find? (fun x => x.1 == h) with
  | none => rw [hf] at hb; exact absurd hb (by simp)
  | some y =>
    rw [hf] at hb
    rw [find?_append_left _ _ _ _ hf]
    exact hb

theorem spawn_getBody (s : GameSimulation) (M : ExtMath) (pos vel : ℚ × ℚ)
    (dmg : ℚ) (own : ℕ) (h : ℕ) (b : Body) (hb : s.physics.getBody h = some b) :
    (s.spawn_projectile M pos vel dmg own).physics.getBody h = some b := by
  unfold GameSimulation.spawn_projectile PhysicsWorld.insertBody PhysicsWorld.insertCollider
  exact getBody_append _ _ _ _ hb

theorem find?_append_none {α} (l l2 : List α) (p : α → Bool)
    (h : l.find? p = none) : (l ++ l2).find? p = l2.find? p := by
  induction l with
  | nil => rfl
  | cons a t ih =>
    have ha : p a = false := by
      have := List.find?_eq_none.mp h a (by simp)
      simpa using this
    rw [List.cons_append, List.find?_cons_of_neg _ (by simp [ha])]
    exact ih (by
      rw [List.find?_eq_none]
      intro x hx
      exact List.find?_eq_none.mp h x (by simp [hx]))

theorem find?_map_set_self {β : Type} (l : List (ℕ × β)) (h : ℕ) (b : β)
    (hs : (l.find? (fun kb => kb.1 == h)).isSome = true) :
    (l.map (fun kb => if kb.1 == h then (h, b) else kb)).find? (fun kb => kb.1 == h)
      = some (h, b) := by
  induction l with
  | nil => simp at hs
  | cons kb t ih =>
    rw [List.map_cons]
    by_cases hk : kb.1 = h
    · rw [if_pos (by simpa using hk)]
      rw [List.find?_cons_of_pos _ (by simp)]
    · rw [if_neg (by simpa using hk)]
      rw [List.find?_cons_of_neg _ (by simpa using hk)]
      rw [List.find?_cons_of_neg _ (by simpa using hk)] at hs
      exact ih hs

theorem find?_map_set_ne {β : Type} (l : List (ℕ × β)) (h h2 : ℕ) (b : β)
    (hne : h ≠ h2) :
    (l.map (fun kb => if kb.1 == h then (h, b) else kb)).find? (fun kb => kb.1 == h2)
      = l.find? (fun kb => kb.1 == h2) := by
  induction l with
  | nil => rfl
  | cons kb t ih =>
    rw [List.map_cons]
    by_cases hk : kb.1 = h
    · rw [if_pos (by simpa using hk)]
      rw [List.find?_cons_of_neg _ (by simpa using hne)]
      rw [List.find?_cons_of_neg _ (by simp [hk, hne])]
      exact ih
    · rw [if_neg (by simpa using hk)]
      by_cases hk2 : kb.1 = h2
      · rw [List.find?_cons_of_pos _ (by simpa using hk2),
            List.find?_cons_of_pos _ (by simpa using hk2)]
      · rw [List.find?_cons_of_neg _ (by simpa using hk2),
            List.find?_cons_of_neg _ (by simpa using hk2)]
        exact ih

theorem getBody_isSome {p : PhysicsWorld} {h : ℕ} {b : Body}
    (hb : p.getBody h = some b) :
    (p.bodies.find? (fun kb => kb.1 == h)).isSome = true := by
  unfold PhysicsWorld.getBody at hb
  cases hf : p.bodies.find? (fun kb => kb.1 == h) with
  | none => rw [hf] at hb; exact absurd hb (by simp)
  | some y => simp

theorem setBody_getBody_self (p : PhysicsWorld) (h : ℕ) (b0 b1 : Body)
    (hb : p.getBody h = some b0) : (p.setBody h b1).getBody h = some b1 := by
  show ((p.bodies.map (fun kb => if kb.1 == h then (h, b1) else kb)).find?
    (fun kb => kb.1 == h)).map Prod.snd = some b1
  rw [find?_map_set_self _ _ _ (getBody_isSome hb)]
  rfl

theorem setBody_getBody_ne (p : PhysicsWorld) (h h2 : ℕ) (b1 : Body)
    (hne : h ≠ h2) : (p.setBody h b1).getBody h2 = p.getBody h2 := by
  show ((p.bodies.map (fun kb => if kb.1 == h then (h, b1) else kb)).find?
    (fun kb => kb.1 == h2)).map Prod.snd
    = (p.bodies.find? (fun kb => kb.1 == h2)).map Prod.snd
  rw [find?_map_set_ne _ _ _ _ hne]

theorem mapLookup_insert_ne (m : List (ℕ × ℕ)) (k2 k v : ℕ) (hne : k2 ≠ k) :
    mapLookup (mapInsert m k2 v) k = mapLookup m k := by
  unfold mapInsert
  by_cases hmem : (m.find? (fun kv => kv.1 == k2)).isSome = true
  · rw [if_pos hmem]
    show ((m.map (fun kv => if kv.1 == k2 then (k2, v) else kv)).find?
      (fun kv => kv.1 == k)).map Prod.snd = (m.find? (fun kv => kv.1 == k)).map Prod.snd
    rw [find?_map_set_ne _ _ _ _ hne]
  · rw [if_neg hmem]
    show ((m ++ [(k2, v)]).find? (fun kv => kv.1 == k)).map Prod.snd
      = (m.find? (fun kv => kv.1 == k)).map Prod.snd
    cases hf : m.find? (fun kv => kv.1 == k) with
    | some y => rw [find?_append_left _ _ _ _ hf]
    | none =>
      rw [find?_append_none _ _ _ hf]
      rw [List.find?_cons_of_neg _ (by simp [hne]), List.find?_nil]

theorem mapLookup_insert_self (m : List (ℕ × ℕ)) (k v : ℕ) :
    mapLookup (mapInsert m k v) k = some v := by
  unfold mapInsert
  by_cases hmem : (m.find? (fun kv => kv.1 == k)).isSome = true
  · rw [if_pos hmem]
    show ((m.map (fun kv => if kv.1 == k then (k, v) else kv)).find?
      (fun kv => kv.1 == k)).map Prod.snd = some v
    rw [find?_map_set_self _ _ _ hmem]
    rfl
  · rw [if_neg hmem]
    show ((m ++ [(k, v)]).find? (fun kv => kv.1 == k)).map Prod.snd = some v
    have hf : m.find? (fun kv => kv.1 == k) = none := by
      cases hmm : m.find? (fun kv => kv.1 == k) with
      | none => rfl
      | some y => rw [hmm] at hmem; exact absurd (by simp) hmem
    rw [find?_append_none _ _ _ hf]
    rw [List.find?_cons_of_pos _ (by simp)]
    rfl

theorem process_weapon_firing_eq (s : GameSimulation) (M : ExtMath) (t : ℚ) :
    s.process_weapon_firing M t
      = spawnFold M (fireGo M t s.world).2 { s with world := (fireGo M t s.world).1 } := rfl

theorem spawn_world_eq (s0 : GameSimulation) (M : ExtMath) (ev : FireEvent) :
    (s0.spawn_projectile M ev.position ev.velocity ev.damage ev.owner_id).world
      = s0.world ++ [projRec M s0 ev] := rfl

theorem spawn_e2b_eq (s0 : GameSimulation) (M : ExtMath) (ev : FireEvent) :
    (s0.spawn_projectile M ev.position ev.velocity ev.damage ev.owner_id).entity_to_body
      = mapInsert s0.entity_to_body s0.next_entity_id s0.physics.next_body_handle := rfl

theorem mapInsert_keys (m : List (ℕ × ℕ)) (k v : ℕ) (P : ℕ → Prop)
    (hm : ∀ kv ∈ m, P kv.1) (hk : P k) : ∀ kv ∈ mapInsert m k v, P kv.1 := by
  intro kv hkv
  unfold mapInsert at hkv
  by_cases hmem : (m.find? (fun kv => kv.1 == k)).isSome = true
  · rw [if_pos hmem] at hkv
    rw [List.mem_map] at hkv
    obtain ⟨kv0, hkv0, heq⟩ := hkv
    by_cases h0 : (kv0.1 == k) = true
    · rw [if_pos h0] at heq
      rw [← heq]
      exact hk
    · rw [if_neg h0] at heq
      rw [← heq]
      exact hm kv0 hkv0
  · rw [if_neg hmem] at hkv
    rcases List.mem_append.mp hkv with hin | hin
    · exact hm kv hin
    · have : kv = (k, v) := by simpa using hin
      rw [this]
      exact hk

theorem spawnFold_spec (M : ExtMath) (evs : List FireEvent) : ∀ (s0 : GameSimulation),
    (∀ kv ∈ s0.entity_to_body, kv.1 < s0.next_entity_id) →
    (∀ h b, s0.physics.getBody h = some b →
      (spawnFold M evs s0).physics.getBody h = some b) ∧
    (∀ k, k < s0.next_entity_id →
      mapLookup (spawnFold M evs s0).entity_to_body k = mapLookup s0.entity_to_body k) ∧
    (∃ news, (spawnFold M evs s0).world = s0.world ++ news ∧
      ∀ n ∈ news, n.ship = none ∧ n.input_buffer = none ∧ n.player = none ∧
        n.transform.isSome = true ∧
        s0.next_entity_id ≤ n.id ∧
        (∀ hv, mapLookup (spawnFold M evs s0).entity_to_body n.id = some hv →
          s0.physics.next_body_handle ≤ hv)) ∧
    s0.next_entity_id ≤ (spawnFold M evs s0).next_entity_id ∧
    s0.physics.next_body_handle ≤ (spawnFold M evs s0).physics.next_body_handle ∧
    (∀ kv ∈ (spawnFold M evs s0).entity_to_body,
      kv.1 < (spawnFold M evs s0).next_entity_id) := by
  induction evs with
  | nil =>
    intro s0 hkeys
    refine ⟨fun h b hb => hb, fun k _ => rfl, ⟨[], by simp [spawnFold], by simp⟩, le_refl _, le_refl _, hkeys⟩
  | cons ev rest ih =>
    intro s0 hkeys
    have hfold : spawnFold M (ev :: rest) s0
        = spawnFold M rest (s0.spawn_projectile M ev.position ev.velocity ev.damage ev.owner_id) := rfl
    set s1 := s0.spawn_projectile M ev.position ev.velocity ev.damage ev.owner_id with hs1
    have hkeys1 : ∀ kv ∈ s1.entity_to_body, kv.1 < s1.next_entity_id := by
      rw [hs1, spawn_e2b_eq]
      have hnext : (s0.spawn_projectile M ev.position ev.velocity ev.damage ev.owner_id).next_entity_id
          = s0.next_entity_id + 1 := rfl
      rw [hnext]
      exact mapInsert_keys _ _ _ (fun x => x < s0.next_entity_id + 1)
        (fun kv hkv => Nat.lt_succ_of_lt (hkeys kv hkv)) (Nat.lt_succ_self _)
    obtain ⟨ihB, ihL, ⟨news1, hnews1, hnewsP⟩, ihN, ihH, ihK⟩ := ih s1 hkeys1
    have hnext1 : s1.next_entity_id = s0.next_entity_id + 1 := rfl
    have hbh1 : s1.physics.next_body_handle = s0.physics.next_body_handle + 1 := rfl
    refine ⟨?_, ?_, ?_, ?_, ?_, ?_⟩
    · intro h b hb
      rw [hfold]
      exact ihB h b (spawn_getBody s0 M ev.position ev.velocity ev.damage ev.owner_id h b hb)
    · intro k hk
      rw [hfold]
      have h1 : mapLookup (spawnFold M rest s1).entity_to_body k
          = mapLookup s1.entity_to_body k := ihL k (by omega)
      rw [h1, hs1, spawn_e2b_eq]
      exact mapLookup_insert_ne _ _ _ _ (by omega)
    · refine ⟨projRec M s0 ev :: news1, ?_, ?_⟩
      · rw [hfold, hnews1, hs1, spawn_world_eq]
        simp
      · intro n hn
        rcases List.mem_cons.mp hn with hn | hn
        · subst hn
          refine ⟨rfl, rfl, rfl, rfl, le_refl _, ?_⟩
          intro hv hlk
          rw [hfold] at hlk
          have hid : (projRec M s0 ev).id = s0.next_entity_id := rfl
          rw [hid] at hlk
          rw [ihL s0.next_entity_id (by omega)] at hlk
          rw [hs1, spawn_e2b_eq, mapLookup_insert_self] at hlk
          injection hlk with hlk
          omega
        · obtain ⟨hs, hib, hpl, htr, hidge, hbnd⟩ := hnewsP n hn
          refine ⟨hs, hib, hpl, htr, by omega, ?_⟩
          intro hv hlk
          rw [hfold] at hlk
          have := hbnd hv hlk
          omega
    · rw [hfold]
      omega
    · rw [hfold]
      omega
    · rw [hfold]
      exact ihK

theorem movementStep_eligible (M : ExtMath) (e2b : List (ℕ × ℕ)) (e : EntityRec)
    (p : PhysicsWorld) (tr : Transform) (sh : Ship) (ib : InputBuffer) (bh : ℕ) (b : Body)
    (htr : e.transform = some tr) (hsh : e.ship = some sh) (hib : e.input_buffer = some ib)
    (hlk : mapLookup e2b e.id = some bh) (hb : p.getBody bh = some b) :
    movementStep M e2b e p
      = ({ e with input_buffer := some { ib with buffer := [] } },
         p.setBody bh (movedBody M tr sh ib b)) := by
  simp only [movementStep, htr, hsh, hib, hlk, hb]
  unfold movedBody
  by_cases hth : ((ib.buffer.getLast?.map InputData.thrust).getD 0) ≠ 0 <;>
    by_cases htn : ((ib.buffer.getLast?.map InputData.turn).getD 0) ≠ 0 <;>
    simp [hth, htn]

theorem movementStep_other (M : ExtMath) (e2b : List (ℕ × ℕ)) (e : EntityRec)
    (p : PhysicsWorld) (bh : ℕ)
    (hne : mapLookup e2b e.id ≠ some bh) :
    (movementStep M e2b e p).2.getBody bh = p.getBody bh := by
  cases htr : e.transform with
  | none => simp only [movementStep, htr]
  | some tr =>
    cases hsh : e.ship with
    | none => simp only [movementStep, htr, hsh]
    | some sh =>
      cases hib : e.input_buffer with
      | none => simp only [movementStep, htr, hsh, hib]
      | some ib =>
        cases hlk : mapLookup e2b e.id with
        | none => simp only [movementStep, htr, hsh, hib, hlk]
        | some bh2 =>
          cases hb : p.getBody bh2 with
          | none => simp only [movementStep, htr, hsh, hib, hlk, hb]
          | some b =>
            simp only [movementStep, htr, hsh, hib, hlk, hb]
            have hne2 : bh2 ≠ bh := by
              intro hcontra
              rw [hcontra] at hlk
              exact hne hlk
            exact setBody_getBody_ne p bh2 bh _ hne2

theorem movementStep_preserves_id (M : ExtMath) (e2b : List (ℕ × ℕ)) (e : EntityRec)
    (p : PhysicsWorld) :
    (movementStep M e2b e p).1.id = e.id ∧
    (movementStep M e2b e p).1.ship = e.ship ∧
    (movementStep M e2b e p).1.transform = e.transform ∧
    (movementStep M e2b e p).1.health = e.health ∧
    (movementStep M e2b e p).1.player = e.player ∧
    (movementStep M e2b e p).1.projectile = e.projectile ∧
    (movementStep M e2b e p).1.lifetime = e.lifetime := by
  unfold movementStep
  repeat' split
  all_goals exact ⟨rfl, rfl, rfl, rfl, rfl, rfl, rfl⟩

theorem movementGo_not_writing (M : ExtMath) (e2b : List (ℕ × ℕ)) :
    ∀ (l : List EntityRec) (p : PhysicsWorld) (bh : ℕ),
    (∀ e2 ∈ l, mapLookup e2b e2.id ≠ some bh) →
    (movementGo M e2b l p).2.getBody bh = p.getBody bh := by
  intro l
  induction l with
  | nil => intro p bh _; rfl
  | cons e rest ih =>
    intro p bh hl
    have hstep := movementStep_other M e2b e p bh (hl e (by simp))
    have htail := ih (movementStep M e2b e p).2 bh (fun e2 he2 => hl e2 (by simp [he2]))
    show (movementGo M e2b rest (movementStep M e2b e p).2).2.getBody bh = p.getBody bh
    rw [htail, hstep]

theorem movementGo_target (M : ExtMath) (e2b : List (ℕ × ℕ)) :
    ∀ (l1 : List EntityRec) (e : EntityRec) (l2 : List EntityRec) (p : PhysicsWorld)
    (tr : Transform) (sh : Ship) (ib : InputBuffer) (bh : ℕ) (b : Body),
    e.transform = some tr → e.ship = some sh → e.input_buffer = some ib →
    mapLookup e2b e.id = some bh →
    (∀ e2 ∈ l1, mapLookup e2b e2.id ≠ some bh) →
    (∀ e2 ∈ l2, mapLookup e2b e2.id ≠ some bh) →
    p.getBody bh = some b →
    (movementGo M e2b (l1 ++ e :: l2) p).2.getBody bh = some (movedBody M tr sh ib b) ∧
    { e with input_buffer := some { ib with buffer := [] } }
      ∈ (movementGo M e2b (l1 ++ e :: l2) p).1 := by
  intro l1
  induction l1 with
  | nil =>
    intro e l2 p tr sh ib bh b htr hsh hib hlk _ hl2 hb
    have hstep := movementStep_eligible M e2b e p tr sh ib bh b htr hsh hib hlk hb
    constructor
    · show (movementGo M e2b l2 (movementStep M e2b e p).2).2.getBody bh
        = some (movedBody M tr sh ib b)
      rw [movementGo_not_writing M e2b l2 _ bh hl2, hstep]
      exact setBody_getBody_self p bh b _ hb
    · show { e with input_buffer := some { ib with buffer := [] } }
        ∈ (movementStep M e2b e p).1 :: (movementGo M e2b l2 (movementStep M e2b e p).2).1
      rw [hstep]
      exact List.mem_cons_self _ _
  | cons x l1x ih =>
    intro e l2 p tr sh ib bh b htr hsh hib hlk hl1 hl2 hb
    have hx : mapLookup e2b x.id ≠ some bh := hl1 x (by simp)
    have hstep := movementStep_other M e2b x p bh hx
    have hb2 : (movementStep M e2b x p).2.getBody bh = some b := by rw [hstep]; exact hb
    have hrest := ih e l2 (movementStep M e2b x p).2 tr sh ib bh b htr hsh hib hlk
      (fun e2 he2 => hl1 e2 (by simp [he2])) hl2 hb2
    constructor
    · show (movementGo M e2b (l1x ++ e :: l2) (movementStep M e2b x p).2).2.getBody bh
        = some (movedBody M tr sh ib b)
      exact hrest.1
    · show { e with input_buffer := some { ib with buffer := [] } }
        ∈ (movementStep M e2b x p).1
          :: (movementGo M e2b (l1x ++ e :: l2) (movementStep M e2b x p).2).1
      exact List.mem_cons_of_mem _ hrest.2

/-! ### Fire-pass bookkeeping -/

theorem fireCheck_fields (M : ExtMath) (t : ℚ) (e : EntityRec) :
    (fireCheck M t e).2.id = e.id ∧ (fireCheck M t e).2.transform = e.transform ∧
    (fireCheck M t e).2.ship = e.ship ∧ (fireCheck M t e).2.input_buffer = e.input_buffer ∧
    (fireCheck M t e).2.health = e.health ∧ (fireCheck M t e).2.lifetime = e.lifetime ∧
    (fireCheck M t e).2.projectile = e.projectile ∧ (fireCheck M t e).2.player = e.player := by
  unfold fireCheck
  repeat' split
  all_goals exact ⟨rfl, rfl, rfl, rfl, rfl, rfl, rfl, rfl⟩

theorem fireGo_fst (M : ExtMath) (t : ℚ) :
    ∀ l : List EntityRec, (fireGo M t l).1 = l.map (fun e => (fireCheck M t e).2) := by
  intro l
  induction l with
  | nil => rfl
  | cons e rest ih =>
    show (fireCheck M t e).2 :: (fireGo M t rest).1 = _
    rw [List.map_cons, ih]

/-- Characterization of update_movement for one linked ship entity, in any
well-formed world: the ship body ends the pass holding exactly the reset
forces plus the pending frame's thrust force and turning torque, and the
ship's input buffer is cleared. -/
theorem update_movement_spec (s : GameSimulation) (M : ExtMath) (e : EntityRec)
    (tr : Transform) (sh : Ship) (ib : InputBuffer) (bh : ℕ) (b : Body)
    (he : e ∈ s.world) (htr : e.transform = some tr) (hsh : e.ship = some sh)
    (hib : e.input_buffer = some ib)
    (hlink : mapLookup s.entity_to_body e.id = some bh)
    (hbody : s.physics.getBody bh = some b)
    (hbh : bh < s.physics.next_body_handle)
    (hids : ∀ e2 ∈ s.world, e2.id < s.next_entity_id)
    (he2bkeys : ∀ kv ∈ s.entity_to_body, kv.1 < s.next_entity_id)
    (hnodup : (s.world.map EntityRec.id).Nodup)
    (hinj : ∀ e2 ∈ s.world, e2.id ≠ e.id → mapLookup s.entity_to_body e2.id ≠ some bh) :
    (s.update_movement M).physics.getBody bh = some (movedBody M tr sh ib b) ∧
    ∃ e2 ∈ (s.update_movement M).world, e2.id = e.id ∧
      e2.input_buffer = some { ib with buffer := [] } ∧
      e2.transform = some tr ∧ e2.ship = some sh := by
  obtain ⟨w1, w2, hw⟩ := List.append_of_mem he
  set t : ℚ := (s.tick : ℚ) * (1 / 15) with ht
  set base : GameSimulation := { s with world := (fireGo M t s.world).1 } with hbase
  have hbase_e2b : base.entity_to_body = s.entity_to_body := rfl
  have hbase_phys : base.physics = s.physics := rfl
  have hbase_next : base.next_entity_id = s.next_entity_id := rfl
  obtain ⟨hB, hL, ⟨news, hnews, hnewsP⟩, hN, hH, hK⟩ :=
    spawnFold_spec M (fireGo M t s.world).2 base he2bkeys
  set s1 := spawnFold M (fireGo M t s.world).2 base with hs1
  have hfire : s.process_weapon_firing M t = s1 := process_weapon_firing_eq s M t
  have hum : s.update_movement M
      = { s1 with world := (movementGo M s1.entity_to_body s1.world s1.physics).1,
                  physics := (movementGo M s1.entity_to_body s1.world s1.physics).2 } := by
    show ({ s.process_weapon_firing M t with
      world := (movementGo M (s.process_weapon_firing M t).entity_to_body
        (s.process_weapon_firing M t).world (s.process_weapon_firing M t).physics).1,
      physics := (movementGo M (s.process_weapon_firing M t).entity_to_body
        (s.process_weapon_firing M t).world (s.process_weapon_firing M t).physics).2 }
      : GameSimulation) = _
    rw [hfire]
  -- identify e's image after the fire pass
  set f2 : EntityRec → EntityRec := fun x => (fireCheck M t x).2 with hf2
  have hworld1 : s1.world = (w1.map f2) ++ f2 e :: ((w2.map f2) ++ news) := by
    rw [hnews]
    show (base.world ++ news) = _
    have : base.world = (fireGo M t s.world).1 := rfl
    rw [this, fireGo_fst, hw]
    simp [hf2]
  have hef := fireCheck_fields M t e
  -- nodup consequences
  have hidne : (∀ y ∈ w1, y.id ≠ e.id) ∧ (∀ y ∈ w2, y.id ≠ e.id) := by
    rw [hw] at hnodup
    rw [List.map_append, List.map_cons] at hnodup
    rw [List.nodup_middle] at hnodup
    have hnotin := (List.nodup_cons.mp hnodup).1
    constructor
    · intro y hy hcontra
      apply hnotin
      rw [← List.map_append]
      exact List.mem_map.mpr ⟨y, List.mem_append.mpr (Or.inl hy), hcontra⟩
    · intro y hy hcontra
      apply hnotin
      rw [← List.map_append]
      exact List.mem_map.mpr ⟨y, List.mem_append.mpr (Or.inr hy), hcontra⟩
  -- lookups of original entities are unchanged by the fire pass
  have hLs : ∀ k, k < s.next_entity_id →
      mapLookup s1.entity_to_body k = mapLookup s.entity_to_body k := by
    intro k hk
    rw [hL k (by rw [hbase_next]; exact hk), hbase_e2b]
  have hmapped_ne : ∀ (y : EntityRec), y ∈ w1 ∨ y ∈ w2 →
      mapLookup s1.entity_to_body (f2 y).id ≠ some bh := by
    intro y hy
    have hyid : (f2 y).id = y.id := (fireCheck_fields M t y).1
    have hymem : y ∈ s.world := by
      rw [hw]
      rcases hy with h1 | h1
      · exact List.mem_append.mpr (Or.inl h1)
      · exact List.mem_append.mpr (Or.inr (List.mem_cons_of_mem _ h1))
    rw [hyid, hLs y.id (hids y hymem)]
    apply hinj y hymem
    rcases hy with h1 | h1
    · exact hidne.1 y h1
    · exact hidne.2 y h1
  have hnews_ne : ∀ n ∈ news, mapLookup s1.entity_to_body n.id ≠ some bh := by
    intro n hn hcontra
    have hbnd := (hnewsP n hn).2.2.2.2.2 bh hcontra
    rw [hbase_phys] at hbnd
    omega
  have hl1 : ∀ e2 ∈ w1.map f2, mapLookup s1.entity_to_body e2.id ≠ some bh := by
    intro e2 he2
    obtain ⟨y, hy, hyeq⟩ := List.mem_map.mp he2
    rw [← hyeq]
    exact hmapped_ne y (Or.inl hy)
  have hl2 : ∀ e2 ∈ (w2.map f2) ++ news, mapLookup s1.entity_to_body e2.id ≠ some bh := by
    intro e2 he2
    rcases List.mem_append.mp he2 with h1 | h1
    · obtain ⟨y, hy, hyeq⟩ := List.mem_map.mp h1
      rw [← hyeq]
      exact hmapped_ne y (Or.inr hy)
    · exact hnews_ne e2 h1
  -- the image of e is still eligible
  have heid : (f2 e).id = e.id := hef.1
  have hetr : (f2 e).transform = some tr := by rw [hef.2.1]; exact htr
  have hesh : (f2 e).ship = some sh := by rw [hef.2.2.1]; exact hsh
  have heib : (f2 e).input_buffer = some ib := by rw [hef.2.2.2.1]; exact hib
  have helk : mapLookup s1.entity_to_body (f2 e).id = some bh := by
    rw [heid, hLs e.id (hids e he)]
    exact hlink
  have hebody : s1.physics.getBody bh = some b := by
    apply hB
    rw [hbase_phys]
    exact hbody
  have htarget := movementGo_target M s1.entity_to_body (w1.map f2) (f2 e)
    ((w2.map f2) ++ news) s1.physics tr sh ib bh b hetr hesh heib helk hl1 hl2 hebody
  rw [← hworld1] at htarget
  constructor
  · rw [hum]
    exact htarget.1
  · rw [hum]
    refine ⟨{ f2 e with input_buffer := some { ib with buffer := [] } }, htarget.2, ?_, rfl, ?_, ?_⟩
    · exact heid
    · exact hetr
    · exact hesh

/-! ### C2: force application per tick -/

/-- C2.  For every ship entity with Transform, Ship and InputBuffer that is
linked to a live physics body, update_movement leaves the body carrying
exactly the reset-then-added forces: thrust force
(cos θ, sin θ)·thrust_power·thrust exactly when the pending thrust is
nonzero, torque −turn·turn_rate·mass·100 exactly when the pending turn is
nonzero (both read from the newest buffered frame, defaulting to 0), with
any previously accumulated force and torque discarded; and afterwards the
ship's input buffer is empty. -/
theorem C2_force_application (s : GameSimulation) (M : ExtMath) (e : EntityRec)
    (tr : Transform) (sh : Ship) (ib : InputBuffer) (bh : ℕ) (b : Body)
    (he : e ∈ s.world) (htr : e.transform = some tr) (hsh : e.ship = some sh)
    (hib : e.input_buffer = some ib)
    (hlink : mapLookup s.entity_to_body e.id = some bh)
    (hbody : s.physics.getBody bh = some b)
    (hbh : bh < s.physics.next_body_handle)
    (hids : ∀ e2 ∈ s.world, e2.id < s.next_entity_id)
    (he2bkeys : ∀ kv ∈ s.entity_to_body, kv.1 < s.next_entity_id)
    (hnodup : (s.world.map EntityRec.id).Nodup)
    (hinj : ∀ e2 ∈ s.world, e2.id ≠ e.id → mapLookup s.entity_to_body e2.id ≠ some bh) :
    (s.update_movement M).physics.getBody bh = some
      { b with
        force := if (ib.buffer.getLast?.map InputData.thrust).getD 0 ≠ 0 then
            (M.rcos tr.rotation * sh.thrust_power
               * ((ib.buffer.getLast?.map InputData.thrust).getD 0),
             M.rsin tr.rotation * sh.thrust_power
               * ((ib.buffer.getLast?.map InputData.thrust).getD 0))
          else (0, 0),
        torque := if (ib.buffer.getLast?.map InputData.turn).getD 0 ≠ 0 then
            -((ib.buffer.getLast?.map InputData.turn).getD 0) * sh.turn_rate * sh.mass * 100
          else 0 } ∧
    ∃ e2 ∈ (s.update_movement M).world, e2.id = e.id ∧
      e2.input_buffer = some { ib with buffer := [] } ∧
      e2.transform = some tr ∧ e2.ship = some sh :=
  update_movement_spec s M e tr sh ib bh b he htr hsh hib hlink hbody hbh hids
    he2bkeys hnodup hinj

section ConcreteEvaluation

attribute [local semireducible] Rat.add Rat.sub Rat.mul Rat.inv

/-- C1.  prepare_inputs consumes from each ship buffer exactly the maximal
run of consecutive in-order frames (the i-th consumed frame has sequence
last_processed_sequence + 1 + i, the run is a prefix of the buffer, and the
first unconsumed frame — if any — is out of order), leaves the buffer
holding exactly the newest consumed frame (or unchanged if none was
consumable), and counts one discarded input per consumed frame beyond the
first.  Concretely, with last_processed_sequence = 4 and buffered sequences
5, 6, 7 carrying thrust 1/5, 1/2, 1: the discard count is 2, only the
thrust-1 frame survives, and one update_movement pass applies exactly the
force (cos 0, sin 0)·500·1 to the ship body. -/
theorem C1_latest_wins :
    (∀ b : InputBuffer, prepareBuffer b =
      match lastOpt (consecRun b.last_processed_sequence b.buffer) with
      | none => (0, b)
      | some y => ((consecRun b.last_processed_sequence b.buffer).length - 1,
          { b with buffer := [y], last_processed_sequence := y.sequence })) ∧
    (∀ (last : ℕ) (l : List InputData),
      l.take (consecRun last l).length = consecRun last l) ∧
    (∀ (l : List InputData) (last i : ℕ) (x : InputData),
      (consecRun last l)[i]? = some x → x.sequence = last + 1 + i) ∧
    (∀ (l : List InputData) (last : ℕ) (x : InputData),
      (l.drop (consecRun last l).length).head? = some x →
      x.sequence ≠ last + 1 + (consecRun last l).length) ∧
    prepareBuffer c1buf
      = (2, { c1buf with buffer := [c1input 7 1], last_processed_sequence := 7 }) ∧
    (∀ M : ExtMath, (c1sim.prepare_inputs.update_movement M).physics.getBody 0
      = some { c1body with force := (M.rcos 0 * 500, M.rsin 0 * 500), torque := 0 }) := by
  refine ⟨prepareBuffer_spec, consecRun_take, consecRun_seq, consecRun_max, by decide, ?_⟩
  intro M
  have hprep : c1sim.prepare_inputs = c1prepared := by decide
  rw [hprep]
  have hspec := update_movement_spec c1prepared M c1shipPrepared
    ⟨(0, 0), 0⟩ { Ship.default with mass := 201 } c1bufPrepared 0 c1body
    (by decide) (by decide) (by decide) (by decide) (by decide) (by decide) (by decide)
    (by decide) (by decide) (by decide) (by decide)
  rw [hspec.1]
  have hmb : movedBody M ⟨(0, 0), 0⟩ { Ship.default with mass := 201 } c1bufPrepared c1body
      = { c1body with force := (M.rcos 0 * 500, M.rsin 0 * 500), torque := 0 } := by
    unfold movedBody
    norm_num [c1bufPrepared, c1buf, c1input, Ship.default]
  rw [hmb]

/-- C1 witness at concrete instances of the quantified conjuncts. -/
theorem C1_latest_wins_witness :
    prepareBuffer c1buf
      = (2, { c1buf with buffer := [c1input 7 1], last_processed_sequence := 7 }) ∧
    (c1input 6 (1 / 2)).sequence = 4 + 1 + 1 := by
  refine ⟨C1_latest_wins.2.2.2.2.1, ?_⟩
  exact C1_latest_wins.2.2.1 c1buf.buffer 4 1 (c1input 6 (1 / 2)) (by decide)

/-- C2 witness: the scenario ship with a stale-force body ends the movement
pass with exactly the thrust force (cos 0, sin 0)·500·1 = (500, 0) and zero
torque, and an empty input buffer. -/
theorem C2_force_application_witness :
    (c1sim.update_movement M0).physics.getBody 0
      = some { c1body with force := (500, 0), torque := 0 } := by
  have h := C2_force_application c1sim M0 c1ship ⟨(0, 0), 0⟩
    { Ship.default with mass := 201 } c1buf 0 c1body
    (by decide) (by decide) (by decide) (by decide) (by decide) (by decide) (by decide)
    (by decide) (by decide) (by decide) (by decide)
  rw [h.1]
  decide

/-- C7 witness: despawning the freshly spawned ship removes its body and
mappings; a second despawn changes nothing. -/
theorem C7_despawn_witness :
    (fireSim0.despawn_entity 0).despawn_entity 0 = fireSim0.despawn_entity 0 ∧
    (fireSim0.despawn_entity 0).physics.getBody 0 = none ∧
    mapLookup (fireSim0.despawn_entity 0).entity_to_body 0 = none := by
  have h := C7_despawn_idempotent fireSim0 0
  refine ⟨h.1, ?_, ?_⟩
  · exact (h.2.1 (fireSim0.world.head?.getD { id := 0 }) 0 (by decide) (by decide)).1
  · exact (h.2.1 (fireSim0.world.head?.getD { id := 0 }) 0 (by decide) (by decide)).2.2.1

/-- C10 witness: an input for an unknown player id leaves the concrete
simulation unchanged. -/
theorem C10_unknown_player_witness :
    fireSim0.add_player_input 99 (fireInput 1) = fireSim0 := by
  have h := C10_unknown_player_input fireSim0 99 (fireInput 1) (by decide)
  exact h.2.2.2.2.2.2.2.2.1 (by decide)

end ConcreteEvaluation

theorem clampPos_inRect (bounds : GameBounds) (pos : ℚ × ℚ)
    (hw : 0 ≤ bounds.width) (hh : 0 ≤ bounds.height) :
    inRect bounds (clampPos bounds pos) := by
  unfold inRect clampPos
  refine ⟨?_, ?_, ?_, ?_⟩ <;> (simp only []; split_ifs <;> linarith)

theorem boundariesStep_inRect (bounds : GameBounds) (e2b : List (ℕ × ℕ))
    (e : EntityRec) (p : PhysicsWorld)
    (hw : 0 ≤ bounds.width) (hh : 0 ≤ bounds.height) :
    ∀ tr2, (boundariesStep bounds e2b e p).1.transform = some tr2 →
      inRect bounds tr2.position := by
  intro tr2 h2
  cases htr : e.transform with
  | none =>
    simp only [boundariesStep, htr] at h2
    exact absurd h2 (by simp)
  | some tr =>
    by_cases hout : outOfRect bounds tr.position
    · have hcl : (boundariesStep bounds e2b e p).1
          = { e with transform := some ⟨clampPos bounds tr.position, tr.rotation⟩ } := by
        cases hlk : mapLookup e2b e.id with
        | none =>
          simp only [boundariesStep, htr, hlk]
          rw [if_pos (by exact hout)]
          rfl
        | some bh =>
          cases hb : p.getBody bh with
          | none =>
            simp only [boundariesStep, htr, hlk, hb]
            rw [if_pos (by exact hout)]
            rfl
          | some b =>
            simp only [boundariesStep, htr, hlk, hb]
            rw [if_pos (by exact hout)]
            rfl
      rw [hcl] at h2
      simp only [Option.some_inj] at h2
      rw [← h2]
      exact clampPos_inRect bounds tr.position hw hh
    · have hcl : (boundariesStep bounds e2b e p).1 = e := by
        simp only [boundariesStep, htr]
        rw [if_neg (by exact hout)]
      rw [hcl, htr] at h2
      injection h2 with h2
      rw [← h2]
      unfold outOfRect at hout
      push_neg at hout
      exact ⟨by linarith [hout.1], by linarith [hout.2.1], by linarith [hout.2.2.1],
        by linarith [hout.2.2.2]⟩

theorem boundariesGo_inRect (bounds : GameBounds) (e2b : List (ℕ × ℕ))
    (hw : 0 ≤ bounds.width) (hh : 0 ≤ bounds.height) :
    ∀ (l : List EntityRec) (p : PhysicsWorld),
    ∀ e2 ∈ (boundariesGo bounds e2b l p).1, ∀ tr, e2.transform = some tr →
      inRect bounds tr.position := by
  intro l
  induction l with
  | nil => intro p e2 he2; exact absurd he2 (by simp [boundariesGo])
  | cons e rest ih =>
    intro p e2 he2 tr htr
    have hcons : (boundariesGo bounds e2b (e :: rest) p).1
        = (boundariesStep bounds e2b e p).1
          :: (boundariesGo bounds e2b rest (boundariesStep bounds e2b e p).2).1 := rfl
    rw [hcons] at he2
    rcases List.mem_cons.mp he2 with h1 | h1
    · rw [h1] at htr
      exact boundariesStep_inRect bounds e2b e p hw hh tr htr
    · exact ih (boundariesStep bounds e2b e p).2 e2 h1 tr htr

theorem boundariesStep_other (bounds : GameBounds) (e2b : List (ℕ × ℕ))
    (e : EntityRec) (p : PhysicsWorld) (bh : ℕ)
    (hne : mapLookup e2b e.id ≠ some bh) :
    (boundariesStep bounds e2b e p).2.getBody bh = p.getBody bh := by
  cases htr : e.transform with
  | none => simp only [boundariesStep, htr]
  | some tr =>
    by_cases hout : outOfRect bounds tr.position
    · cases hlk : mapLookup e2b e.id with
      | none =>
        simp only [boundariesStep, htr, hlk]
        rw [if_pos (by exact hout)]
      | some bh2 =>
        cases hb : p.getBody bh2 with
        | none =>
          simp only [boundariesStep, htr, hlk, hb]
          rw [if_pos (by exact hout)]
        | some b =>
          simp only [boundariesStep, htr, hlk, hb]
          rw [if_pos (by exact hout)]
          have hne2 : bh2 ≠ bh := by
            intro hcontra
            rw [hcontra] at hlk
            exact hne hlk
          exact setBody_getBody_ne p bh2 bh _ hne2
    · simp only [boundariesStep, htr]
      rw [if_neg (by exact hout)]

theorem boundariesGo_not_writing (bounds : GameBounds) (e2b : List (ℕ × ℕ)) :
    ∀ (l : List EntityRec) (p : PhysicsWorld) (bh : ℕ),
    (∀ e2 ∈ l, mapLookup e2b e2.id ≠ some bh) →
    (boundariesGo bounds e2b l p).2.getBody bh = p.getBody bh := by
  intro l
  induction l with
  | nil => intro p bh _; rfl
  | cons e rest ih =>
    intro p bh hl
    have hstep := boundariesStep_other bounds e2b e p bh (hl e (by simp))
    have htail := ih (boundariesStep bounds e2b e p).2 bh (fun e2 he2 => hl e2 (by simp [he2]))
    show (boundariesGo bounds e2b rest (boundariesStep bounds e2b e p).2).2.getBody bh
      = p.getBody bh
    rw [htail, hstep]

theorem boundariesStep_clamped (bounds : GameBounds) (e2b : List (ℕ × ℕ))
    (e : EntityRec) (p : PhysicsWorld) (tr : Transform) (bh : ℕ) (b : Body)
    (htr : e.transform = some tr) (hout : outOfRect bounds tr.position)
    (hlk : mapLookup e2b e.id = some bh) (hb : p.getBody bh = some b) :
    boundariesStep bounds e2b e p
      = ({ e with transform := some ⟨clampPos bounds tr.position, tr.rotation⟩ },
         p.setBody bh { b with position := clampPos bounds tr.position,
                               linvel := (b.linvel.1 * (1 / 2), b.linvel.2 * (1 / 2)) }) := by
  simp only [boundariesStep, htr, hlk, hb]
  rw [if_pos (by exact hout)]
  rfl

theorem boundariesGo_target (bounds : GameBounds) (e2b : List (ℕ × ℕ)) :
    ∀ (l1 : List EntityRec) (e : EntityRec) (l2 : List EntityRec) (p : PhysicsWorld)
    (tr : Transform) (bh : ℕ) (b : Body),
    e.transform = some tr → outOfRect bounds tr.position →
    mapLookup e2b e.id = some bh →
    (∀ e2 ∈ l1, mapLookup e2b e2.id ≠ some bh) →
    (∀ e2 ∈ l2, mapLookup e2b e2.id ≠ some bh) →
    p.getBody bh = some b →
    (boundariesGo bounds e2b (l1 ++ e :: l2) p).2.getBody bh
      = some { b with position := clampPos bounds tr.position,
                      linvel := (b.linvel.1 * (1 / 2), b.linvel.2 * (1 / 2)) } ∧
    { e with transform := some ⟨clampPos bounds tr.position, tr.rotation⟩ }
      ∈ (boundariesGo bounds e2b (l1 ++ e :: l2) p).1 := by
  intro l1
  induction l1 with
  | nil =>
    intro e l2 p tr bh b htr hout hlk _ hl2 hb
    have hstep := boundariesStep_clamped bounds e2b e p tr bh b htr hout hlk hb
    constructor
    · show (boundariesGo bounds e2b l2 (boundariesStep bounds e2b e p).2).2.getBody bh = _
      rw [boundariesGo_not_writing bounds e2b l2 _ bh hl2, hstep]
      exact setBody_getBody_self p bh b _ hb
    · show _ ∈ (boundariesStep bounds e2b e p).1
        :: (boundariesGo bounds e2b l2 (boundariesStep bounds e2b e p).2).1
      rw [hstep]
      exact List.mem_cons_self _ _
  | cons x l1x ih =>
    intro e l2 p tr bh b htr hout hlk hl1 hl2 hb
    have hstep := boundariesStep_other bounds e2b x p bh (hl1 x (by simp))
    have hb2 : (boundariesStep bounds e2b x p).2.getBody bh = some b := by
      rw [hstep]; exact hb
    have hrest := ih e l2 (boundariesStep bounds e2b x p).2 tr bh b htr hout hlk
      (fun e2 he2 => hl1 e2 (by simp [he2])) hl2 hb2
    exact ⟨hrest.1, List.mem_cons_of_mem _ hrest.2⟩

theorem bounds_despawn (s : GameSimulation) (e : ℕ) :
    (s.despawn_entity e).bounds = s.bounds := by
  unfold GameSimulation.despawn_entity
  split <;> rfl

theorem bounds_fire (s : GameSimulation) (M : ExtMath) (t : ℚ) :
    (s.process_weapon_firing M t).bounds = s.bounds := by
  unfold GameSimulation.process_weapon_firing
  exact foldl_measure (fun x => x.bounds)
    (fun acc (ev : FireEvent) => acc.spawn_projectile M ev.position ev.velocity ev.damage ev.owner_id)
    (fun _ _ => rfl) _ _

theorem bounds_movement (s : GameSimulation) (M : ExtMath) :
    (s.update_movement M).bounds = s.bounds := by
  unfold GameSimulation.update_movement
  exact bounds_fire s M _

theorem bounds_lifetime (s : GameSimulation) (dt : ℚ) :
    (s.update_lifetime_system dt).bounds = s.bounds := by
  unfold GameSimulation.update_lifetime_system
  exact foldl_measure (fun x => x.bounds) _ (fun s2 a => bounds_despawn s2 a) _ _

theorem step_bounds (s : GameSimulation) (M : ExtMath)
    (f : PhysicsWorld → PhysicsWorld) (nowMs : ℕ) (dt : ℚ) :
    (s.step M f nowMs dt).2.bounds = s.bounds := by
  show ((((s.prepare_inputs.update_movement M).step_physics f dt).sync_physics_to_ecs
      ).update_lifetime_system dt).bounds = s.bounds
  rw [bounds_lifetime]
  show (s.prepare_inputs.update_movement M).bounds = s.bounds
  rw [bounds_movement]
  rfl

/-- C4.  After any step call the simulation bounds are unchanged and every
entity of the resulting world that carries a Transform sits inside the
closed arena rectangle (assuming nonnegative arena extents); and whenever
apply_boundaries meets an out-of-rectangle entity whose id is linked to a
live physics body (the link being the only one aimed at that handle), the
clamped position is mirrored to the body and the body linear velocity is
halved, while the entity itself ends up clamped in the resulting world. -/
theorem C4_boundary_containment (s : GameSimulation) (M : ExtMath)
    (f : PhysicsWorld → PhysicsWorld) (nowMs : ℕ) (dt : ℚ)
    (hw : 0 ≤ s.bounds.width) (hh : 0 ≤ s.bounds.height) :
    (s.step M f nowMs dt).2.bounds = s.bounds ∧
    (∀ e ∈ (s.step M f nowMs dt).2.world, ∀ tr, e.transform = some tr →
      inRect s.bounds tr.position) ∧
    (∀ (s2 : GameSimulation) (l1 : List EntityRec) (e : EntityRec) (l2 : List EntityRec)
       (tr : Transform) (bh : ℕ) (b : Body),
      s2.world = l1 ++ e :: l2 →
      e.transform = some tr → outOfRect s2.bounds tr.position →
      mapLookup s2.entity_to_body e.id = some bh →
      (∀ e3 ∈ l1, mapLookup s2.entity_to_body e3.id ≠ some bh) →
      (∀ e3 ∈ l2, mapLookup s2.entity_to_body e3.id ≠ some bh) →
      s2.physics.getBody bh = some b →
      s2.apply_boundaries.physics.getBody bh
        = some { b with position := clampPos s2.bounds tr.position,
                        linvel := (b.linvel.1 * (1 / 2), b.linvel.2 * (1 / 2)) } ∧
      { e with transform := some ⟨clampPos s2.bounds tr.position, tr.rotation⟩ }
        ∈ s2.apply_boundaries.world) := by
  refine ⟨step_bounds s M f nowMs dt, ?_, ?_⟩
  · intro e he tr htr
    have hb6 : (((((s.prepare_inputs.update_movement M).step_physics f dt).sync_physics_to_ecs
        ).update_lifetime_system dt).update_health_system dt).bounds = s.bounds :=
      step_bounds s M f nowMs dt
    have hmem : (s.step M f nowMs dt).2.world
        = (boundariesGo
            (((((s.prepare_inputs.update_movement M).step_physics f dt).sync_physics_to_ecs
              ).update_lifetime_system dt).update_health_system dt).bounds
            (((((s.prepare_inputs.update_movement M).step_physics f dt).sync_physics_to_ecs
              ).update_lifetime_system dt).update_health_system dt).entity_to_body
            (((((s.prepare_inputs.update_movement M).step_physics f dt).sync_physics_to_ecs
              ).update_lifetime_system dt).update_health_system dt).world
            (((((s.prepare_inputs.update_movement M).step_physics f dt).sync_physics_to_ecs
              ).update_lifetime_system dt).update_health_system dt).physics).1 := rfl
    rw [hmem] at he
    have hres := boundariesGo_inRect _ _
      (by rw [hb6]; exact hw) (by rw [hb6]; exact hh) _ _ e he tr htr
    rw [hb6] at hres
    exact hres
  · intro s2 l1 e l2 tr bh b hworld htr hout hlk hl1 hl2 hbody
    have h := boundariesGo_target s2.bounds s2.entity_to_body l1 e l2 s2.physics tr bh b
      htr hout hlk hl1 hl2 hbody
    have hwld : s2.apply_boundaries.world
        = (boundariesGo s2.bounds s2.entity_to_body s2.world s2.physics).1 := rfl
    have hphy : s2.apply_boundaries.physics
        = (boundariesGo s2.bounds s2.entity_to_body s2.world s2.physics).2 := rfl
    rw [hwld, hphy, hworld]
    exact ⟨h.1, h.2⟩

section ConcreteEvaluationC4

attribute [local semireducible] Rat.add Rat.sub Rat.mul Rat.inv

theorem C4_boundary_containment_witness :
    (∀ e ∈ (c4sim.step M0 physId 0 (1 / 15)).2.world, ∀ tr, e.transform = some tr →
      inRect c4sim.bounds tr.position) ∧
    c4sim.apply_boundaries.physics.getBody 5
      = some { c4body with position := (960, 40), linvel := (5, 2) } ∧
    { c4ship with transform := some ⟨(960, 40), 0⟩ } ∈ c4sim.apply_boundaries.world := by
  have h := C4_boundary_containment c4sim M0 physId 0 (1 / 15) (by decide) (by decide)
  refine ⟨h.2.1, ?_⟩
  have h2 := h.2.2 c4sim [] c4ship [] ⟨(2000, 40), 0⟩ 5 c4body rfl rfl
    (by unfold outOfRect; exact Or.inr (Or.inl (by decide))) rfl
    (fun e3 he3 => absurd he3 (by simp)) (fun e3 he3 => absurd he3 (by simp)) rfl
  have hcl : clampPos c4sim.bounds ((2000 : ℚ), (40 : ℚ)) = (960, 40) := by
    unfold clampPos
    decide
  have hlv : ((c4body.linvel.1 * (1 / 2) : ℚ), (c4body.linvel.2 * (1 / 2) : ℚ))
      = ((5 : ℚ), (2 : ℚ)) := by decide
  rw [hcl, hlv] at h2
  exact h2

end ConcreteEvaluationC4

section ConcreteEvaluationC5

attribute [local semireducible] Rat.add Rat.sub Rat.mul Rat.inv

/-- C5 (amended).  For a RapidFire ship entity, a fire event is produced
exactly when the newest buffered frame requests primary fire and the
cooldown has elapsed on the firing clock; the event then carries spawn
position 15 units ahead of the ship along its facing, velocity
speed·(cos θ, sin θ) — of magnitude speed whenever (cos θ, sin θ) lies on
the unit circle — and the weapon clock advances to the firing time.
spawn_projectile appends exactly one entity with lifetime 3 and the
projectile record ⟨damage, 3, |v|, owner⟩; update_movement drives the
firing pass with the simulation clock tick·(1/15) and the post-step state
never depends on the wall clock.  The stored cooldown is the f32 literal
0.2, which the comparison widens to 13421773/2^26 — strictly above three
15 Hz ticks and at most four — so in the concrete scenario with primary
fire held every tick, exactly one projectile spawns per FOUR ticks, not
per three as the original claim stated. -/
theorem C5_fire_cadence (M : ExtMath) (t : ℚ) (e : EntityRec)
    (tr : Transform) (pl : Player) (ib : InputBuffer) (w : Weapon)
    (rate damage speed : ℚ)
    (htr : e.transform = some tr) (hpl : e.player = some pl)
    (hib : e.input_buffer = some ib) (hw : e.weapon = some w)
    (hwt : w.weapon_type = .RapidFire rate damage speed) :
    ((fireCheck M t e).1.isSome = true ↔
      ∃ latest, ib.buffer.getLast? = some latest ∧ latest.primary_fire = true ∧
        w.cooldown ≤ t - w.last_fire_time) ∧
    (∀ latest, ib.buffer.getLast? = some latest → latest.primary_fire = true →
      w.cooldown ≤ t - w.last_fire_time →
      fireCheck M t e
        = (some { position := (tr.position.1 + M.rcos tr.rotation * 15,
                               tr.position.2 + M.rsin tr.rotation * 15),
                  velocity := (M.rcos tr.rotation * speed, M.rsin tr.rotation * speed),
                  damage := damage, owner_id := pl.id },
           { e with weapon := some { w with last_fire_time := t } })) ∧
    ((M.rcos tr.rotation) ^ 2 + (M.rsin tr.rotation) ^ 2 = 1 →
      (M.rcos tr.rotation * speed) ^ 2 + (M.rsin tr.rotation * speed) ^ 2 = speed ^ 2) ∧
    (∀ (s : GameSimulation) (pos vel : ℚ × ℚ) (dmg : ℚ) (own : ℕ),
      (s.spawn_projectile M pos vel dmg own).world
        = s.world ++ [{ id := s.next_entity_id,
                        transform := some ⟨pos, M.ratan2 vel.2 vel.1⟩,
                        velocity := some ⟨vel, 0⟩,
                        projectile := some ⟨dmg, 3, M.vnorm vel, own⟩,
                        lifetime := some ⟨3⟩,
                        rigid_body := some s.physics.next_body_handle,
                        collider := some s.physics.next_collider_handle }]) ∧
    (∀ (s : GameSimulation),
      (s.update_movement M).world
        = (movementGo M (s.process_weapon_firing M (s.tick * (1 / 15))).entity_to_body
            (s.process_weapon_firing M (s.tick * (1 / 15))).world
            (s.process_weapon_firing M (s.tick * (1 / 15))).physics).1) ∧
    (∀ (s : GameSimulation) (f : PhysicsWorld → PhysicsWorld) (n1 n2 : ℕ) (dt : ℚ),
      (s.step M f n1 dt).2 = (s.step M f n2 dt).2) ∧
    (1 / 5 < cooldown02 ∧ ¬ cooldown02 ≤ 3 * (1 / 15) ∧ cooldown02 ≤ 4 * (1 / 15)) ∧
    (∀ nowFn : ℕ → ℕ, runCounts nowFn 45 0 fireSim0
        = (List.range 45).map (fun k => k / 4)) := by
  refine ⟨?_, ?_, ?_, fun s pos vel dmg own => rfl, fun s => rfl,
    fun s f n1 n2 dt => rfl, ⟨by decide, by decide, by decide⟩, ?_⟩
  · constructor
    · intro hsome
      cases hlast : ib.buffer.getLast? with
      | none =>
        simp only [fireCheck, htr, hpl, hib, hw, hlast] at hsome
        exact absurd hsome (by simp)
      | some latest =>
        by_cases hcond : latest.primary_fire = true ∧ w.cooldown ≤ t - w.last_fire_time
        · exact ⟨latest, rfl, hcond.1, hcond.2⟩
        · simp only [fireCheck, htr, hpl, hib, hw, hlast] at hsome
          rw [if_neg hcond] at hsome
          exact absurd hsome (by simp)
    · rintro ⟨latest, hlast, hpf, hcd⟩
      simp only [fireCheck, htr, hpl, hib, hw, hlast, hwt]
      rw [if_pos (by exact ⟨hpf, hcd⟩)]
      rfl
  · intro latest hlast hpf hcd
    simp only [fireCheck, htr, hpl, hib, hw, hlast, hwt]
    rw [if_pos (by exact ⟨hpf, hcd⟩)]
  · intro hunit
    have hsplit : (M.rcos tr.rotation * speed) ^ 2 + (M.rsin tr.rotation * speed) ^ 2
        = ((M.rcos tr.rotation) ^ 2 + (M.rsin tr.rotation) ^ 2) * speed ^ 2 := by ring
    rw [hsplit, hunit, one_mul]
  · intro nowFn
    have hind : ∀ (n i : ℕ) (s : GameSimulation),
        runCounts nowFn n i s = runCounts (fun _ => 0) n i s := by
      intro n
      induction n with
      | zero => intro i s; rfl
      | succ n ih =>
        intro i s
        simp only [runCounts]
        rw [ih]
        rfl
    rw [hind]
    decide

end ConcreteEvaluationC5

section ConcreteEvaluationC5W

attribute [local semireducible] Rat.add Rat.sub Rat.mul Rat.inv

theorem C5_fire_cadence_witness :
    fireCheck M0 (4 * (1 / 15)) c5ship
      = (some { position := (15, 0), velocity := (300, 0), damage := 25, owner_id := 7 },
         { c5ship with weapon := some { weapon_type := .RapidFire 5 25 300,
                                        last_fire_time := 4 * (1 / 15), ammo := none,
                                        cooldown := cooldown02 } }) ∧
    runCounts (fun k => 1000 * k + 37) 45 0 fireSim0
      = (List.range 45).map (fun k => k / 4) := by
  have h := C5_fire_cadence M0 (4 * (1 / 15)) c5ship ⟨(0, 0), 0⟩ ⟨7, "p", 0, 0, 0, 0⟩ c5buf
    { weapon_type := .RapidFire 5 25 300, last_fire_time := 0, ammo := none,
      cooldown := cooldown02 }
    5 25 300 rfl rfl rfl rfl rfl
  constructor
  · rw [h.2.1 (fireInput 5) rfl rfl (by decide)]
    decide
  · exact h.2.2.2.2.2.2.2 (fun k => 1000 * k + 37)

/-- The firing test fails at simulation time 3·(1/15) = 1/5 — the f32
cooldown 0.2 widens to a strictly larger f64 — and over 45 held-fire ticks
the projectile counts do not follow the one-per-3-ticks cadence of the
original claim. -/
theorem C5_three_tick_counterexample :
    fireCheck M0 (3 * (1 / 15)) c5ship = (none, c5ship) ∧
    runCounts (fun _ => 0) 45 0 fireSim0
      ≠ (List.range 45).map (fun k => k / 3) := by
  constructor
  · decide
  · decide

end ConcreteEvaluationC5W

theorem worldHealthOk_map (w : List EntityRec) (f : EntityRec → EntityRec)
    (hf : ∀ e, (f e).health = e.health) (hok : worldHealthOk w) :
    worldHealthOk (w.map f) := by
  intro e2 he2 h hh
  rw [List.mem_map] at he2
  obtain ⟨e, he, heq⟩ := he2
  rw [← heq, hf] at hh
  exact hok e he h hh

theorem worldHealthOk_append_none (w : List EntityRec) (e : EntityRec)
    (he : e.health = none) (hok : worldHealthOk w) :
    worldHealthOk (w ++ [e]) := by
  intro e2 he2 h hh
  rw [List.mem_append] at he2
  rcases he2 with h1 | h1
  · exact hok e2 h1 h hh
  · rw [List.mem_singleton] at h1
    rw [h1, he] at hh
    cases hh

theorem foldl_pred {α : Type} (P : GameSimulation → Prop)
    (g : GameSimulation → α → GameSimulation)
    (hg : ∀ s a, P s → P (g s a)) :
    ∀ (l : List α) (s : GameSimulation), P s → P (l.foldl g s) := by
  intro l
  induction l with
  | nil => intro s hs; exact hs
  | cons a l ih => intro s hs; exact ih _ (hg s a hs)

theorem prepareStep_health (e : EntityRec) : (prepareStep e).health = e.health := by
  unfold prepareStep
  repeat' split
  all_goals rfl

theorem syncStep_health (e2b : List (ℕ × ℕ)) (p : PhysicsWorld) (e : EntityRec) :
    (syncStep e2b p e).health = e.health := by
  unfold syncStep
  repeat' split
  all_goals rfl

theorem lifeStep_health (dt : ℚ) (e : EntityRec) : (lifeStep dt e).health = e.health := by
  unfold lifeStep
  repeat' split
  all_goals rfl

theorem movementStep_health (M : ExtMath) (e2b : List (ℕ × ℕ)) (e : EntityRec)
    (p : PhysicsWorld) : (movementStep M e2b e p).1.health = e.health := by
  unfold movementStep
  repeat' split
  all_goals rfl

theorem boundariesStep_health (bounds : GameBounds) (e2b : List (ℕ × ℕ)) (e : EntityRec)
    (p : PhysicsWorld) : (boundariesStep bounds e2b e p).1.health = e.health := by
  cases htr : e.transform with
  | none => simp only [boundariesStep, htr]
  | some tr =>
    by_cases hout : outOfRect bounds tr.position
    · cases hlk : mapLookup e2b e.id with
      | none =>
        simp only [boundariesStep, htr, hlk]
        rw [if_pos (by exact hout)]
      | some bh =>
        cases hb : p.getBody bh with
        | none =>
          simp only [boundariesStep, htr, hlk, hb]
          rw [if_pos (by exact hout)]
        | some b =>
          simp only [boundariesStep, htr, hlk, hb]
          rw [if_pos (by exact hout)]
    · simp only [boundariesStep, htr]
      rw [if_neg (by exact hout)]

theorem movementGo_healthOk (M : ExtMath) (e2b : List (ℕ × ℕ)) :
    ∀ (l : List EntityRec) (p : PhysicsWorld),
    worldHealthOk l → worldHealthOk (movementGo M e2b l p).1 := by
  intro l
  induction l with
  | nil => intro p hok; exact hok
  | cons e rest ih =>
    intro p hok e2 he2 h hh
    have hc : (movementGo M e2b (e :: rest) p).1
        = (movementStep M e2b e p).1
          :: (movementGo M e2b rest (movementStep M e2b e p).2).1 := rfl
    rw [hc] at he2
    rcases List.mem_cons.mp he2 with h1 | h1
    · rw [h1, movementStep_health] at hh
      exact hok e (by simp) h hh
    · exact ih (movementStep M e2b e p).2
        (fun e3 he3 h3 hh3 => hok e3 (by simp [he3]) h3 hh3) e2 h1 h hh

theorem boundariesGo_healthOk (bounds : GameBounds) (e2b : List (ℕ × ℕ)) :
    ∀ (l : List EntityRec) (p : PhysicsWorld),
    worldHealthOk l → worldHealthOk (boundariesGo bounds e2b l p).1 := by
  intro l
  induction l with
  | nil => intro p hok; exact hok
  | cons e rest ih =>
    intro p hok e2 he2 h hh
    have hc : (boundariesGo bounds e2b (e :: rest) p).1
        = (boundariesStep bounds e2b e p).1
          :: (boundariesGo bounds e2b rest (boundariesStep bounds e2b e p).2).1 := rfl
    rw [hc] at he2
    rcases List.mem_cons.mp he2 with h1 | h1
    · rw [h1, boundariesStep_health] at hh
      exact hok e (by simp) h hh
    · exact ih (boundariesStep bounds e2b e p).2
        (fun e3 he3 h3 hh3 => hok e3 (by simp [he3]) h3 hh3) e2 h1 h hh

theorem healthStep_spec (ct dt : ℚ) (e : EntityRec) (h : Health)
    (hh : e.health = some h) :
    (healthStep ct dt e).health
      = some (if h.shield_recharge_delay ≤ ct - h.last_damage_time ∧ h.shield < h.shield_max
              then regenShield h dt else h) := by
  simp only [healthStep, hh]
  by_cases hc : h.shield_recharge_delay ≤ ct - h.last_damage_time ∧ h.shield < h.shield_max
  · rw [if_pos hc, if_pos hc]
  · rw [if_neg hc, if_neg hc]
    exact hh

theorem healthStep_mono (ct dt : ℚ) (hdt : 0 ≤ dt) (e : EntityRec) (h : Health)
    (hh : e.health = some h) (hok : healthOk h) :
    ∀ h2, (healthStep ct dt e).health = some h2 →
      healthOk h2 ∧ h2.current = h.current ∧ h.shield ≤ h2.shield := by
  intro h2 hh2
  rw [healthStep_spec ct dt e h hh] at hh2
  injection hh2 with hh2
  obtain ⟨h1, hsm, hc0, hcm, hr⟩ := hok
  by_cases hc : h.shield_recharge_delay ≤ ct - h.last_damage_time ∧ h.shield < h.shield_max
  · rw [if_pos hc] at hh2
    subst hh2
    unfold healthOk regenShield
    refine ⟨⟨le_min (by nlinarith) (le_trans h1 hsm), min_le_right _ _, hc0, hcm, hr⟩,
      rfl, le_min (by nlinarith) (le_of_lt hc.2)⟩
  · rw [if_neg hc] at hh2
    subst hh2
    exact ⟨⟨h1, hsm, hc0, hcm, hr⟩, rfl, le_refl _⟩

theorem healthOk_prepare (s : GameSimulation) (hok : worldHealthOk s.world) :
    worldHealthOk s.prepare_inputs.world :=
  worldHealthOk_map s.world prepareStep prepareStep_health hok

theorem healthOk_fire (s : GameSimulation) (M : ExtMath) (t : ℚ)
    (hok : worldHealthOk s.world) :
    worldHealthOk (s.process_weapon_firing M t).world := by
  have h1 : worldHealthOk (fireGo M t s.world).1 := by
    rw [fireGo_fst]
    exact worldHealthOk_map s.world _
      (fun e => (fireCheck_fields M t e).2.2.2.2.1) hok
  exact foldl_pred (fun s2 => worldHealthOk s2.world)
    (fun acc (ev : FireEvent) =>
      acc.spawn_projectile M ev.position ev.velocity ev.damage ev.owner_id)
    (fun s2 ev hs2 => by
      show worldHealthOk
        (s2.spawn_projectile M ev.position ev.velocity ev.damage ev.owner_id).world
      rw [spawn_world_eq]
      exact worldHealthOk_append_none _ _ rfl hs2)
    (fireGo M t s.world).2 { s with world := (fireGo M t s.world).1 } h1

theorem healthOk_movement (s : GameSimulation) (M : ExtMath)
    (hok : worldHealthOk s.world) :
    worldHealthOk (s.update_movement M).world := by
  have h1 := healthOk_fire s M (s.tick * (1 / 15)) hok
  exact movementGo_healthOk M
    (s.process_weapon_firing M (s.tick * (1 / 15))).entity_to_body
    (s.process_weapon_firing M (s.tick * (1 / 15))).world
    (s.process_weapon_firing M (s.tick * (1 / 15))).physics h1

theorem healthOk_sync (s : GameSimulation) (hok : worldHealthOk s.world) :
    worldHealthOk s.sync_physics_to_ecs.world :=
  worldHealthOk_map s.world (syncStep s.entity_to_body s.physics)
    (syncStep_health s.entity_to_body s.physics) hok

theorem healthOk_lifetime (s : GameSimulation) (dt : ℚ)
    (hok : worldHealthOk s.world) :
    worldHealthOk (s.update_lifetime_system dt).world := by
  have h1 : worldHealthOk (s.world.map (lifeStep dt)) :=
    worldHealthOk_map s.world (lifeStep dt) (lifeStep_health dt) hok
  exact foldl_pred (fun s2 => worldHealthOk s2.world)
    (fun acc i => acc.despawn_entity i)
    (fun s2 i hs2 => by
      show worldHealthOk (s2.despawn_entity i).world
      rw [despawn_world]
      intro e he h hh
      rw [List.mem_filter] at he
      exact hs2 e he.1 h hh)
    _ { s with world := s.world.map (lifeStep dt) } h1

theorem healthOk_health (s : GameSimulation) (dt : ℚ) (hdt : 0 ≤ dt)
    (hok : worldHealthOk s.world) :
    worldHealthOk (s.update_health_system dt).world := by
  intro e2 he2 h2 hh2
  have he2m : e2 ∈ s.world.map (healthStep (s.tick * (1 / 15)) dt) := he2
  rw [List.mem_map] at he2m
  obtain ⟨e, he, heq⟩ := he2m
  rw [← heq] at hh2
  cases hhe : e.health with
  | none =>
    have hn : (healthStep (s.tick * (1 / 15)) dt e).health = none := by
      simp only [healthStep, hhe]
    rw [hn] at hh2
    cases hh2
  | some h =>
    exact (healthStep_mono (s.tick * (1 / 15)) dt hdt e h hhe (hok e he h hhe) h2 hh2).1

theorem healthOk_bound (s : GameSimulation) (hok : worldHealthOk s.world) :
    worldHealthOk s.apply_boundaries.world :=
  boundariesGo_healthOk s.bounds s.entity_to_body s.world s.physics hok

section ConcreteEvaluationC6

attribute [local semireducible] Rat.add Rat.sub Rat.mul Rat.inv

theorem healthOk_default : healthOk Health.default := by
  unfold healthOk Health.default
  refine ⟨by decide, by decide, by decide, by decide, by decide⟩

end ConcreteEvaluationC6

/-- C6.  The spawn-time Health defaults are well formed; with nonnegative dt
every system of step, and the full step, preserves well-formedness
(0 ≤ shield ≤ shield_max, 0 ≤ current ≤ max, nonnegative recharge rate) of
every Health component; the health system adds shield_recharge_rate · dt to
the shield, clamped to shield_max, exactly when the recharge delay has
elapsed and the shield is not full; and it never changes current nor
decreases the shield. -/
theorem C6_health_invariants (s : GameSimulation) (M : ExtMath)
    (f : PhysicsWorld → PhysicsWorld) (nowMs : ℕ) (dt : ℚ)
    (hdt : 0 ≤ dt) (hok : worldHealthOk s.world) :
    healthOk Health.default ∧
    (s.update_health_system dt).world = s.world.map (healthStep (s.tick * (1 / 15)) dt) ∧
    (∀ (ct dt2 : ℚ) (e : EntityRec) (h : Health), e.health = some h →
      (healthStep ct dt2 e).health
        = some (if h.shield_recharge_delay ≤ ct - h.last_damage_time ∧ h.shield < h.shield_max
                then regenShield h dt2 else h)) ∧
    (∀ (ct dt2 : ℚ), 0 ≤ dt2 → ∀ (e : EntityRec) (h : Health), e.health = some h →
      healthOk h → ∀ h2, (healthStep ct dt2 e).health = some h2 →
        healthOk h2 ∧ h2.current = h.current ∧ h.shield ≤ h2.shield) ∧
    worldHealthOk s.prepare_inputs.world ∧
    worldHealthOk (s.prepare_inputs.update_movement M).world ∧
    worldHealthOk ((s.prepare_inputs.update_movement M).step_physics f dt).world ∧
    worldHealthOk ((s.prepare_inputs.update_movement M).step_physics f dt
      ).sync_physics_to_ecs.world ∧
    worldHealthOk (((s.prepare_inputs.update_movement M).step_physics f dt
      ).sync_physics_to_ecs.update_lifetime_system dt).world ∧
    worldHealthOk ((((s.prepare_inputs.update_movement M).step_physics f dt
      ).sync_physics_to_ecs.update_lifetime_system dt).update_health_system dt).world ∧
    worldHealthOk (s.step M f nowMs dt).2.world := by
  have h1 := healthOk_prepare s hok
  have h2 := healthOk_movement _ M h1
  have h3 : worldHealthOk ((s.prepare_inputs.update_movement M).step_physics f dt).world := h2
  have h4 := healthOk_sync _ h3
  have h5 := healthOk_lifetime _ dt h4
  have h6 := healthOk_health _ dt hdt h5
  have h7 := healthOk_bound _ h6
  exact ⟨healthOk_default, rfl, fun ct dt2 e h hh => healthStep_spec ct dt2 e h hh,
    fun ct dt2 hdt2 e h hh hok2 => healthStep_mono ct dt2 hdt2 e h hh hok2,
    h1, h2, h3, h4, h5, h6, h7⟩

section ConcreteEvaluationC6W

attribute [local semireducible] Rat.add Rat.sub Rat.mul Rat.inv

theorem C6_health_witness :
    worldHealthOk (c6sim.step M0 physId 0 (1 / 15)).2.world ∧
    (healthStep 5 (1 / 15) c6ent).health = some { c6health with shield := 122 / 3 } := by
  have hok : worldHealthOk c6sim.world := by
    intro e he h hh
    rw [show c6sim.world = [c6ent] from rfl, List.mem_singleton] at he
    subst he
    have hh2 : some c6health = some h := hh
    injection hh2 with hh2
    rw [← hh2]
    unfold healthOk
    refine ⟨by decide, by decide, by decide, by decide, by decide⟩
  have h := C6_health_invariants c6sim M0 physId 0 (1 / 15) (by decide) hok
  refine ⟨h.2.2.2.2.2.2.2.2.2.2, ?_⟩
  rw [h.2.2.1 5 (1 / 15) c6ent c6health rfl]
  rw [if_pos (⟨by decide, by decide⟩ :
    c6health.shield_recharge_delay ≤ 5 - c6health.last_damage_time ∧
    c6health.shield < c6health.shield_max)]
  decide

end ConcreteEvaluationC6W

/-! ### C9: input buffers are cleared by every step -/

theorem getBody_isSome_iff (p : PhysicsWorld) (h : ℕ) :
    (p.getBody h).isSome = true ↔ h ∈ p.bodies.map Prod.fst := by
  unfold PhysicsWorld.getBody
  constructor
  · intro hs
    cases hf : p.bodies.find? (fun kb => kb.1 == h) with
    | none => rw [hf] at hs; exact absurd hs (by simp)
    | some kb =>
      have hmem := List.mem_of_find?_eq_some hf
      have hkb : (kb.1 == h) = true := by
        have h2 := List.find?_some hf
        simpa using h2
      rw [List.mem_map]
      exact ⟨kb, hmem, by simpa using hkb⟩
  · intro hmem
    rw [List.mem_map] at hmem
    obtain ⟨kb, hmem, hkb⟩ := hmem
    cases hf : p.bodies.find? (fun kb => kb.1 == h) with
    | none =>
      exact absurd (show (fun kb : ℕ × Body => kb.1 == h) kb = true by simp [hkb])
        (List.find?_eq_none.mp hf kb hmem)
    | some kb2 => simp

theorem getBody_live_of_keys {p1 p2 : PhysicsWorld} {h : ℕ} {b : Body}
    (hk : p1.bodies.map Prod.fst = p2.bodies.map Prod.fst)
    (hb : p1.getBody h = some b) : ∃ b2, p2.getBody h = some b2 := by
  have h1 : (p1.getBody h).isSome = true := by rw [hb]; rfl
  rw [getBody_isSome_iff, hk, ← getBody_isSome_iff] at h1
  cases h2 : p2.getBody h with
  | none => rw [h2] at h1; exact absurd h1 (by simp)
  | some b2 => exact ⟨b2, rfl⟩

theorem setBody_keys (p : PhysicsWorld) (h : ℕ) (b : Body) :
    (p.setBody h b).bodies.map Prod.fst = p.bodies.map Prod.fst := by
  show (p.bodies.map fun kb => if kb.1 == h then (h, b) else kb).map Prod.fst = _
  rw [List.map_map]
  apply List.map_congr_left
  intro kb _
  simp only [Function.comp_apply]
  by_cases hkb : (kb.1 == h) = true
  · rw [if_pos hkb]
    have hkb2 : kb.1 = h := by simpa using hkb
    exact hkb2.symm
  · rw [if_neg hkb]

theorem movementStep_keys (M : ExtMath) (e2b : List (ℕ × ℕ)) (e : EntityRec)
    (p : PhysicsWorld) :
    (movementStep M e2b e p).2.bodies.map Prod.fst = p.bodies.map Prod.fst := by
  unfold movementStep
  repeat' split
  all_goals first | rfl | apply setBody_keys

theorem boundariesStep_keys (bounds : GameBounds) (e2b : List (ℕ × ℕ)) (e : EntityRec)
    (p : PhysicsWorld) :
    (boundariesStep bounds e2b e p).2.bodies.map Prod.fst = p.bodies.map Prod.fst := by
  cases htr : e.transform with
  | none => simp only [boundariesStep, htr]
  | some tr =>
    by_cases hout : outOfRect bounds tr.position
    · cases hlk : mapLookup e2b e.id with
      | none =>
        simp only [boundariesStep, htr, hlk]
        rw [if_pos (by exact hout)]
      | some bh =>
        cases hb : p.getBody bh with
        | none =>
          simp only [boundariesStep, htr, hlk, hb]
          rw [if_pos (by exact hout)]
        | some b =>
          simp only [boundariesStep, htr, hlk, hb]
          rw [if_pos (by exact hout)]
          apply setBody_keys
    · simp only [boundariesStep, htr]
      rw [if_neg (by exact hout)]

theorem movementGo_keys (M : ExtMath) (e2b : List (ℕ × ℕ)) :
    ∀ (l : List EntityRec) (p : PhysicsWorld),
    (movementGo M e2b l p).2.bodies.map Prod.fst = p.bodies.map Prod.fst := by
  intro l
  induction l with
  | nil => intro p; rfl
  | cons e rest ih =>
    intro p
    show (movementGo M e2b rest (movementStep M e2b e p).2).2.bodies.map Prod.fst = _
    rw [ih, movementStep_keys]

theorem boundariesGo_keys (bounds : GameBounds) (e2b : List (ℕ × ℕ)) :
    ∀ (l : List EntityRec) (p : PhysicsWorld),
    (boundariesGo bounds e2b l p).2.bodies.map Prod.fst = p.bodies.map Prod.fst := by
  intro l
  induction l with
  | nil => intro p; rfl
  | cons e rest ih =>
    intro p
    show (boundariesGo bounds e2b rest (boundariesStep bounds e2b e p).2).2.bodies.map Prod.fst = _
    rw [ih, boundariesStep_keys]

theorem syncStep_fields (e2b : List (ℕ × ℕ)) (p : PhysicsWorld) (e : EntityRec) :
    (syncStep e2b p e).id = e.id ∧ (syncStep e2b p e).ship = e.ship ∧
    (syncStep e2b p e).input_buffer = e.input_buffer ∧
    (syncStep e2b p e).transform.isSome = e.transform.isSome := by
  cases htr : e.transform with
  | none =>
    simp only [syncStep, htr]
    simp
  | some tr =>
    cases hv : e.velocity with
    | none =>
      simp only [syncStep, htr, hv]
      simp
    | some v =>
      cases hlk : mapLookup e2b e.id with
      | none =>
        simp only [syncStep, htr, hv, hlk]
        simp
      | some bh =>
        cases hb : p.getBody bh with
        | none =>
          simp only [syncStep, htr, hv, hlk, hb]
          simp
        | some b =>
          simp only [syncStep, htr, hv, hlk, hb]
          simp [htr]

theorem healthStep_fields (ct dt : ℚ) (e : EntityRec) :
    (healthStep ct dt e).id = e.id ∧ (healthStep ct dt e).ship = e.ship ∧
    (healthStep ct dt e).input_buffer = e.input_buffer ∧
    (healthStep ct dt e).transform = e.transform := by
  unfold healthStep
  repeat' split
  all_goals exact ⟨rfl, rfl, rfl, rfl⟩

theorem lifeStep_fields (dt : ℚ) (e : EntityRec) :
    (lifeStep dt e).id = e.id ∧ (lifeStep dt e).ship = e.ship ∧
    (lifeStep dt e).input_buffer = e.input_buffer ∧
    (lifeStep dt e).transform = e.transform := by
  unfold lifeStep
  repeat' split
  all_goals exact ⟨rfl, rfl, rfl, rfl⟩

theorem boundariesStep_fields (bounds : GameBounds) (e2b : List (ℕ × ℕ)) (e : EntityRec)
    (p : PhysicsWorld) :
    (boundariesStep bounds e2b e p).1.id = e.id ∧
    (boundariesStep bounds e2b e p).1.ship = e.ship ∧
    (boundariesStep bounds e2b e p).1.input_buffer = e.input_buffer ∧
    (boundariesStep bounds e2b e p).1.transform.isSome = e.transform.isSome := by
  cases htr : e.transform with
  | none =>
    simp only [boundariesStep, htr]
    simp
  | some tr =>
    by_cases hout : outOfRect bounds tr.position
    · cases hlk : mapLookup e2b e.id with
      | none =>
        simp only [boundariesStep, htr, hlk]
        rw [if_pos (by exact hout)]
        simp [htr]
      | some bh =>
        cases hb : p.getBody bh with
        | none =>
          simp only [boundariesStep, htr, hlk, hb]
          rw [if_pos (by exact hout)]
          simp [htr]
        | some b =>
          simp only [boundariesStep, htr, hlk, hb]
          rw [if_pos (by exact hout)]
          simp [htr]
    · simp only [boundariesStep, htr]
      rw [if_neg (by exact hout)]
      simp [htr]

theorem boundariesGo_mem (bounds : GameBounds) (e2b : List (ℕ × ℕ)) :
    ∀ (l : List EntityRec) (p : PhysicsWorld),
    ∀ e2 ∈ (boundariesGo bounds e2b l p).1, ∃ e ∈ l,
      e2.id = e.id ∧ e2.ship = e.ship ∧ e2.input_buffer = e.input_buffer ∧
      e2.transform.isSome = e.transform.isSome := by
  intro l
  induction l with
  | nil => intro p e2 he2; exact absurd he2 (by simp [boundariesGo])
  | cons e rest ih =>
    intro p e2 he2
    have hc : (boundariesGo bounds e2b (e :: rest) p).1
        = (boundariesStep bounds e2b e p).1
          :: (boundariesGo bounds e2b rest (boundariesStep bounds e2b e p).2).1 := rfl
    rw [hc] at he2
    rcases List.mem_cons.mp he2 with h1 | h1
    · refine ⟨e, by simp, ?_⟩
      rw [h1]
      exact boundariesStep_fields bounds e2b e p
    · obtain ⟨e0, he0, hf2⟩ := ih (boundariesStep bounds e2b e p).2 e2 h1
      exact ⟨e0, by simp [he0], hf2⟩

theorem movementGo_mem (M : ExtMath) (e2b : List (ℕ × ℕ)) :
    ∀ (l : List EntityRec) (p : PhysicsWorld),
    ∀ e2 ∈ (movementGo M e2b l p).1, ∃ e ∈ l, ∃ p2 : PhysicsWorld,
      p2.bodies.map Prod.fst = p.bodies.map Prod.fst ∧
      e2 = (movementStep M e2b e p2).1 := by
  intro l
  induction l with
  | nil => intro p e2 he2; exact absurd he2 (by simp [movementGo])
  | cons e rest ih =>
    intro p e2 he2
    have hc : (movementGo M e2b (e :: rest) p).1
        = (movementStep M e2b e p).1
          :: (movementGo M e2b rest (movementStep M e2b e p).2).1 := rfl
    rw [hc] at he2
    rcases List.mem_cons.mp he2 with h1 | h1
    · exact ⟨e, by simp, p, rfl, h1⟩
    · obtain ⟨e0, he0, p2, hk, heq⟩ := ih (movementStep M e2b e p).2 e2 h1
      exact ⟨e0, by simp [he0], p2, by rw [hk, movementStep_keys], heq⟩

theorem movementStep_ib_none (M : ExtMath) (e2b : List (ℕ × ℕ)) (e : EntityRec)
    (p : PhysicsWorld) (hib : e.input_buffer = none) :
    (movementStep M e2b e p).1.input_buffer = none := by
  cases htr : e.transform with
  | none => simp only [movementStep, htr]; exact hib
  | some tr =>
    cases hsh : e.ship with
    | none => simp only [movementStep, htr, hsh]; exact hib
    | some sh => simp only [movementStep, htr, hsh, hib]

theorem mapLookup_mapRemove_self (m : List (ℕ × ℕ)) (j : ℕ) :
    mapLookup (mapRemove m j) j = none := by
  induction m with
  | nil => rfl
  | cons kv rest ih =>
    unfold mapRemove at ih ⊢
    rw [List.filter_cons]
    by_cases hkvj : (kv.1 != j) = true
    · rw [if_pos hkvj]
      show ((kv :: List.filter _ rest).find? (fun kv2 => kv2.1 == j)).map Prod.snd = none
      rw [List.find?_cons_of_neg _ (by simpa using hkvj)]
      exact ih
    · rw [if_neg hkvj]
      exact ih

theorem mapLookup_mapRemove_some (m : List (ℕ × ℕ)) (j k bh : ℕ) :
    mapLookup (mapRemove m j) k = some bh → mapLookup m k = some bh := by
  by_cases hkj : k = j
  · intro h
    rw [hkj, mapLookup_mapRemove_self] at h
    cases h
  · induction m with
    | nil => intro h; exact h
    | cons kv rest ih =>
      intro h
      unfold mapRemove at h
      rw [List.filter_cons] at h
      by_cases hkvj : (kv.1 != j) = true
      · rw [if_pos hkvj] at h
        by_cases hkvk : (kv.1 == k) = true
        · unfold mapLookup at h
          rw [List.find?_cons_of_pos _ (by exact hkvk)] at h
          show ((kv :: rest).find? (fun kv2 => kv2.1 == k)).map Prod.snd = some bh
          rw [List.find?_cons_of_pos _ (by exact hkvk)]
          exact h
        · unfold mapLookup at h
          rw [List.find?_cons_of_neg _ (by exact hkvk)] at h
          show ((kv :: rest).find? (fun kv2 => kv2.1 == k)).map Prod.snd = some bh
          rw [List.find?_cons_of_neg _ (by exact hkvk)]
          exact ih h
      · rw [if_neg hkvj] at h
        have hkvj2 : kv.1 = j := by simpa using hkvj
        have hkvk : ¬ ((kv.1 == k) = true) := by
          simp only [beq_iff_eq, hkvj2]
          exact fun hc => hkj hc.symm
        show ((kv :: rest).find? (fun kv2 => kv2.1 == k)).map Prod.snd = some bh
        rw [List.find?_cons_of_neg _ (by exact hkvk)]
        exact ih h

theorem despawn_e2b_some (s : GameSimulation) (i k bh : ℕ)
    (h : mapLookup (s.despawn_entity i).entity_to_body k = some bh) :
    mapLookup s.entity_to_body k = some bh := by
  unfold GameSimulation.despawn_entity at h
  cases hm : (s.world.find? (fun e => e.id == i)).bind (fun r => r.rigid_body) with
  | none =>
    simp only [hm] at h
    exact h
  | some bh2 =>
    simp only [hm] at h
    exact mapLookup_mapRemove_some s.entity_to_body i k bh h

theorem foldl_despawn_e2b_some (l : List ℕ) :
    ∀ (s : GameSimulation) (k bh : ℕ),
    mapLookup (l.foldl (fun acc i => acc.despawn_entity i) s).entity_to_body k = some bh →
    mapLookup s.entity_to_body k = some bh := by
  induction l with
  | nil => intro s k bh h; exact h
  | cons i rest ih =>
    intro s k bh h
    exact despawn_e2b_some s i k bh (ih (s.despawn_entity i) k bh h)

theorem despawn_physics_keys (s : GameSimulation) (i h : ℕ)
    (hm : h ∈ (s.despawn_entity i).physics.bodies.map Prod.fst) :
    h ∈ s.physics.bodies.map Prod.fst := by
  unfold GameSimulation.despawn_entity at hm
  cases hmm : (s.world.find? (fun e => e.id == i)).bind (fun r => r.rigid_body) with
  | none =>
    simp only [hmm] at hm
    exact hm
  | some bh =>
    simp only [hmm] at hm
    rw [List.mem_map] at hm ⊢
    obtain ⟨kb, hkb, hfst⟩ := hm
    exact ⟨kb, List.mem_of_mem_filter hkb, hfst⟩

theorem foldl_despawn_physics_keys (l : List ℕ) :
    ∀ (s : GameSimulation) (h : ℕ),
    h ∈ (l.foldl (fun acc i => acc.despawn_entity i) s).physics.bodies.map Prod.fst →
    h ∈ s.physics.bodies.map Prod.fst := by
  induction l with
  | nil => intro s h hm; exact hm
  | cons i rest ih =>
    intro s h hm
    exact despawn_physics_keys s i h (ih (s.despawn_entity i) h hm)

theorem foldl_despawn_world_sub (l : List ℕ) :
    ∀ (s : GameSimulation) (e : EntityRec),
    e ∈ (l.foldl (fun acc i => acc.despawn_entity i) s).world → e ∈ s.world := by
  induction l with
  | nil => intro s e h; exact h
  | cons i rest ih =>
    intro s e h
    have h2 := ih (s.despawn_entity i) e h
    rw [despawn_world] at h2
    exact List.mem_of_mem_filter h2

theorem prepare_out_of_order (ib : InputBuffer)
    (hho : ∀ inp, ib.buffer.head? = some inp →
      inp.sequence ≠ ib.last_processed_sequence + 1) :
    prepareBuffer ib = (0, ib) := by
  cases hbuf : ib.buffer with
  | nil =>
    unfold prepareBuffer
    rw [hbuf]
    have hd : drainList [] ib.last_processed_sequence none 0
        = ⟨none, 0, [], ib.last_processed_sequence⟩ := rfl
    rw [hd, ← hbuf]
  | cons front rest =>
    have hne : front.sequence ≠ ib.last_processed_sequence + 1 :=
      hho front (by rw [hbuf]; rfl)
    unfold prepareBuffer
    rw [hbuf]
    have hd : drainList (front :: rest) ib.last_processed_sequence none 0
        = ⟨none, 0, front :: rest, ib.last_processed_sequence⟩ := by
      conv_lhs => rw [drainList]
      rw [if_neg hne]
    rw [hd, ← hbuf]

theorem bound_world_mem (s : GameSimulation) :
    ∀ e2 ∈ s.apply_boundaries.world, ∃ e ∈ s.world,
      e2.id = e.id ∧ e2.ship = e.ship ∧ e2.input_buffer = e.input_buffer ∧
      e2.transform.isSome = e.transform.isSome :=
  fun e2 he2 => boundariesGo_mem s.bounds s.entity_to_body s.world s.physics e2 he2

theorem health_world_mem (s : GameSimulation) (dt : ℚ) :
    ∀ e2 ∈ (s.update_health_system dt).world, ∃ e ∈ s.world,
      e2.id = e.id ∧ e2.ship = e.ship ∧ e2.input_buffer = e.input_buffer ∧
      e2.transform = e.transform := by
  intro e2 he2
  have h1 : e2 ∈ s.world.map (healthStep (s.tick * (1 / 15)) dt) := he2
  rw [List.mem_map] at h1
  obtain ⟨e, he, heq⟩ := h1
  obtain ⟨hf1, hf2, hf3, hf4⟩ := healthStep_fields (s.tick * (1 / 15)) dt e
  exact ⟨e, he, by rw [← heq]; exact hf1, by rw [← heq]; exact hf2,
    by rw [← heq]; exact hf3, by rw [← heq]; exact hf4⟩

theorem lifetime_world_mem (s : GameSimulation) (dt : ℚ) :
    ∀ e2 ∈ (s.update_lifetime_system dt).world, ∃ e ∈ s.world,
      e2.id = e.id ∧ e2.ship = e.ship ∧ e2.input_buffer = e.input_buffer ∧
      e2.transform = e.transform := by
  intro e2 he2
  have h1 : e2 ∈ s.world.map (lifeStep dt) := foldl_despawn_world_sub _ _ e2 he2
  rw [List.mem_map] at h1
  obtain ⟨e, he, heq⟩ := h1
  obtain ⟨hf1, hf2, hf3, hf4⟩ := lifeStep_fields dt e
  exact ⟨e, he, by rw [← heq]; exact hf1, by rw [← heq]; exact hf2,
    by rw [← heq]; exact hf3, by rw [← heq]; exact hf4⟩

theorem sync_world_mem (s : GameSimulation) :
    ∀ e2 ∈ s.sync_physics_to_ecs.world, ∃ e ∈ s.world,
      e2.id = e.id ∧ e2.ship = e.ship ∧ e2.input_buffer = e.input_buffer ∧
      e2.transform.isSome = e.transform.isSome := by
  intro e2 he2
  have h1 : e2 ∈ s.world.map (syncStep s.entity_to_body s.physics) := he2
  rw [List.mem_map] at h1
  obtain ⟨e, he, heq⟩ := h1
  obtain ⟨hf1, hf2, hf3, hf4⟩ := syncStep_fields s.entity_to_body s.physics e
  exact ⟨e, he, by rw [← heq]; exact hf1, by rw [← heq]; exact hf2,
    by rw [← heq]; exact hf3, by rw [← heq]; exact hf4⟩

theorem movement_world_mem (s : GameSimulation) (M : ExtMath) :
    ∀ e2 ∈ (s.update_movement M).world,
    ∃ e ∈ (s.process_weapon_firing M (s.tick * (1 / 15))).world, ∃ p2 : PhysicsWorld,
      p2.bodies.map Prod.fst
        = (s.process_weapon_firing M (s.tick * (1 / 15))).physics.bodies.map Prod.fst ∧
      e2 = (movementStep M
        (s.process_weapon_firing M (s.tick * (1 / 15))).entity_to_body e p2).1 :=
  fun e2 he2 => movementGo_mem M _ _ _ e2 he2

theorem lifetime_e2b_some (s : GameSimulation) (dt : ℚ) (k bh : ℕ)
    (h : mapLookup (s.update_lifetime_system dt).entity_to_body k = some bh) :
    mapLookup s.entity_to_body k = some bh :=
  foldl_despawn_e2b_some
    (((s.world.map (lifeStep dt)).filter lifetimeDoomed).map EntityRec.id)
    { s with world := s.world.map (lifeStep dt) } k bh h

theorem lifetime_physics_keys (s : GameSimulation) (dt : ℚ) (h : ℕ)
    (hm : h ∈ (s.update_lifetime_system dt).physics.bodies.map Prod.fst) :
    h ∈ s.physics.bodies.map Prod.fst :=
  foldl_despawn_physics_keys
    (((s.world.map (lifeStep dt)).filter lifetimeDoomed).map EntityRec.id)
    { s with world := s.world.map (lifeStep dt) } h hm

set_option maxHeartbeats 2000000 in
/-- C9.  After any step call whose physics pipeline preserves the body
arena, every surviving entity carrying a Transform, a Ship and an
InputBuffer whose id is linked to a live physics body has an empty input
buffer; the movement pass clears the buffer of every linked ship entity
unconditionally, whether or not a frame was consumable; and a buffer whose
head frame is out of order (sequence ≠ last_processed_sequence + 1) is left
completely untouched by the prepare pass: nothing is consumed or discarded
and last_processed_sequence does not advance. -/
theorem C9_buffers_cleared (s : GameSimulation) (M : ExtMath)
    (f : PhysicsWorld → PhysicsWorld) (nowMs : ℕ) (dt : ℚ)
    (hf : PhysOk f) :
    (∀ e1 ∈ (s.step M f nowMs dt).2.world, ∀ tr sh ib bh b,
      e1.transform = some tr → e1.ship = some sh → e1.input_buffer = some ib →
      mapLookup (s.step M f nowMs dt).2.entity_to_body e1.id = some bh →
      (s.step M f nowMs dt).2.physics.getBody bh = some b →
      ib.buffer = []) ∧
    (∀ (e2b : List (ℕ × ℕ)) (e : EntityRec) (p : PhysicsWorld)
       (tr : Transform) (sh : Ship) (ib : InputBuffer) (bh : ℕ) (b : Body),
      e.transform = some tr → e.ship = some sh → e.input_buffer = some ib →
      mapLookup e2b e.id = some bh → p.getBody bh = some b →
      (movementStep M e2b e p).1
        = { e with input_buffer := some { ib with buffer := [] } }) ∧
    (∀ ib : InputBuffer,
      (∀ inp, ib.buffer.head? = some inp →
        inp.sequence ≠ ib.last_processed_sequence + 1) →
      prepareBuffer ib = (0, ib)) := by
  refine ⟨?_, ?_, fun ib hho => prepare_out_of_order ib hho⟩
  · intro e1 he1 tr sh ib bh b htr hsh hib hlk hb
    have he1b : e1 ∈ (healthStage s M f dt).apply_boundaries.world := he1
    obtain ⟨e6, he6, hid6, hsh6, hib6, htrs6⟩ :=
      bound_world_mem (healthStage s M f dt) e1 he1b
    have he6h : e6 ∈ ((lifeStage s M f dt).update_health_system dt).world := he6
    obtain ⟨e5, he5, hid5, hsh5, hib5, htr5⟩ :=
      health_world_mem (lifeStage s M f dt) dt e6 he6h
    have he5l : e5 ∈ ((syncStage s M f dt).update_lifetime_system dt).world := he5
    obtain ⟨e4, he4, hid4, hsh4, hib4, htr4⟩ :=
      lifetime_world_mem (syncStage s M f dt) dt e5 he5l
    have he4s : e4 ∈ (physStage s M f dt).sync_physics_to_ecs.world := he4
    obtain ⟨e3, he3, hid3, hsh3, hib3, htrs3⟩ :=
      sync_world_mem (physStage s M f dt) e4 he4s
    have he3m : e3 ∈ (s.prepare_inputs.update_movement M).world := he3
    obtain ⟨e0, he0, p2, hkeys, heq0⟩ :=
      movement_world_mem s.prepare_inputs M e3 he3m
    obtain ⟨hmid, hmsh, hmtr, -, -, -, -⟩ := movementStep_preserves_id M
      (s.prepare_inputs.process_weapon_firing M
        (s.prepare_inputs.tick * (1 / 15))).entity_to_body e0 p2
    have hide : e1.id = e0.id := by
      rw [hid6, hid5, hid4, hid3, heq0]
      exact hmid
    have hsh0 : e0.ship = some sh := by
      rw [← hmsh, ← heq0, ← hsh3, ← hsh4, ← hsh5, ← hsh6]
      exact hsh
    have h1t : e1.transform.isSome = true := by rw [htr]; rfl
    have h3t : e3.transform.isSome = true := by
      rw [← htrs3, ← htr4, ← htr5, ← htrs6]
      exact h1t
    have h0t : e0.transform.isSome = true := by
      rw [← hmtr, ← heq0]
      exact h3t
    obtain ⟨tr0, htr0⟩ : ∃ tr0, e0.transform = some tr0 := by
      cases hx : e0.transform with
      | none => rw [hx] at h0t; exact absurd h0t (by simp)
      | some tr0 => exact ⟨tr0, rfl⟩
    have hlk5 : mapLookup ((syncStage s M f dt).update_lifetime_system dt).entity_to_body e1.id
        = some bh := hlk
    have hlk4 := lifetime_e2b_some (syncStage s M f dt) dt e1.id bh hlk5
    have hlkF : mapLookup (s.prepare_inputs.process_weapon_firing M
        (s.prepare_inputs.tick * (1 / 15))).entity_to_body e1.id = some bh := hlk4
    have hlk0 : mapLookup (s.prepare_inputs.process_weapon_firing M
        (s.prepare_inputs.tick * (1 / 15))).entity_to_body e0.id = some bh := by
      rw [← hide]
      exact hlkF
    have hbb : (healthStage s M f dt).apply_boundaries.physics.getBody bh = some b := hb
    obtain ⟨b6, hb6⟩ := getBody_live_of_keys
      (boundariesGo_keys (healthStage s M f dt).bounds (healthStage s M f dt).entity_to_body
        (healthStage s M f dt).world (healthStage s M f dt).physics) hbb
    have hb5 : ((syncStage s M f dt).update_lifetime_system dt).physics.getBody bh
        = some b6 := hb6
    have hm5 := (getBody_isSome_iff
      ((syncStage s M f dt).update_lifetime_system dt).physics bh).mp (by rw [hb5]; rfl)
    have hm4 := lifetime_physics_keys (syncStage s M f dt) dt bh hm5
    have hm4f : bh ∈ (f { (moveStage s M).physics with dt := dt }).bodies.map Prod.fst := hm4
    rw [(hf { (moveStage s M).physics with dt := dt }).1] at hm4f
    have hm3g : bh ∈ (movementGo M
        (s.prepare_inputs.process_weapon_firing M
          (s.prepare_inputs.tick * (1 / 15))).entity_to_body
        (s.prepare_inputs.process_weapon_firing M
          (s.prepare_inputs.tick * (1 / 15))).world
        (s.prepare_inputs.process_weapon_firing M
          (s.prepare_inputs.tick * (1 / 15))).physics).2.bodies.map Prod.fst := hm4f
    rw [movementGo_keys] at hm3g
    have hm2 : bh ∈ p2.bodies.map Prod.fst := by
      rw [hkeys]
      exact hm3g
    obtain ⟨b2, hb2⟩ : ∃ b2, p2.getBody bh = some b2 := by
      have hs2 := (getBody_isSome_iff p2 bh).mpr hm2
      cases hgb : p2.getBody bh with
      | none => rw [hgb] at hs2; exact absurd hs2 (by simp)
      | some b2 => exact ⟨b2, rfl⟩
    have hib3e : e3.input_buffer = some ib := by
      rw [← hib3, ← hib4, ← hib5, ← hib6]
      exact hib
    cases hib0 : e0.input_buffer with
    | none =>
      have hnone := movementStep_ib_none M
        (s.prepare_inputs.process_weapon_firing M
          (s.prepare_inputs.tick * (1 / 15))).entity_to_body e0 p2 hib0
      rw [heq0, hnone] at hib3e
      cases hib3e
    | some ib0 =>
      have helig := movementStep_eligible M
        (s.prepare_inputs.process_weapon_firing M
          (s.prepare_inputs.tick * (1 / 15))).entity_to_body
        e0 p2 tr0 sh ib0 bh b2 htr0 hsh0 hib0 hlk0 hb2
      have h31 : e3.input_buffer = some { ib0 with buffer := ([] : List InputData) } := by
        rw [heq0, helig]
      have hsame : some ib = some { ib0 with buffer := ([] : List InputData) } := by
        rw [← hib3e, h31]
      injection hsame with hsame
      rw [hsame]
  · intro e2b e p tr sh ib bh b htr hsh hib hlk hb
    rw [movementStep_eligible M e2b e p tr sh ib bh b htr hsh hib hlk hb]

section ConcreteEvaluationC9

attribute [local semireducible] Rat.add Rat.sub Rat.mul Rat.inv

theorem C9_buffers_cleared_witness :
    (∀ ib, ((c1sim.step M0 physId 0 (1 / 15)).2.world.head?.getD { id := 99 }).input_buffer
        = some ib → ib.buffer = []) ∧
    prepareBuffer c9buf = (0, c9buf) := by
  have h := C9_buffers_cleared c1sim M0 physId 0 (1 / 15) physOk_physId
  constructor
  · intro ib hibx
    exact h.1 ((c1sim.step M0 physId 0 (1 / 15)).2.world.head?.getD { id := 99 })
      (by decide) ⟨(0, 0), 0⟩ { Ship.default with mass := 201 } ib 0
      { c1body with force := (500, 0), torque := 0 }
      (by decide) (by decide) hibx (by decide) (by decide)
  · exact h.2.2 c9buf (by
      intro inp hinp
      have h2 : some (c1input 9 1) = some inp := hinp
      injection h2 with h2
      rw [← h2]
      decide)

end ConcreteEvaluationC9

end CosmicCrunchers
